import Mathlib

/-!
Shallow embedding of the space-invader game.

The simulation engine (`GameEngine` in the game-state module, together with
its `constants` module) and the camera / instance-packing logic of
`renderer.ts` are translated into pure Lean functions.  TypeScript `number`
values are modelled as rationals; the browser's random source
(`Math.random`), clocks (`performance.now`) and transcendental float
functions (`Math.sin`, `Math.cos`, `Math.PI`) are modelled as explicit
oracle parameters, so every definition stays executable.
-/

namespace SpaceInvader

/-- 3-D position record (`Position` in `types.ts`). -/
structure Pos3 where
  x : ℚ
  y : ℚ
  z : ℚ
  deriving DecidableEq

/-- Bounding-box extent record (the `size` field of `GameObject`). -/
structure Size3 where
  width : ℚ
  height : ℚ
  depth : ℚ
  deriving DecidableEq

/-- `ModelType` enum from `types.ts`. -/
inductive ModelType where
  | Cube
  | PlayerShip
  | Invader
  | Laser
  deriving DecidableEq

/-- `GameState` enum from `types.ts`. -/
inductive GameState where
  | StartMenu
  | Playing
  | GameOver
  deriving DecidableEq

/-- The shared invader direction, `'right' | 'left'` in the source. -/
inductive InvDir where
  | right
  | left
  deriving DecidableEq

/-- Direction flip performed when the invaders hit a wall. -/
def InvDir.flip : InvDir → InvDir
  | InvDir.right => InvDir.left
  | InvDir.left => InvDir.right

/-- `Player` entity (`GameObject` in `types.ts`). -/
structure Player where
  id : ℚ
  position : Pos3
  size : Size3
  modelType : ModelType
  deriving DecidableEq

/-- `Invader` entity: a `GameObject` plus its row index `type`. -/
structure Invader where
  id : ℚ
  position : Pos3
  size : Size3
  type : ℕ
  modelType : ModelType
  deriving DecidableEq

/-- `Laser` entity (`GameObject` in `types.ts`). -/
structure Laser where
  id : ℚ
  position : Pos3
  size : Size3
  modelType : ModelType
  deriving DecidableEq

/-- `Particle` entity: a `GameObject` plus velocity, lifetime and color. -/
structure Particle where
  id : ℚ
  position : Pos3
  size : Size3
  velocity : Pos3
  life : ℚ
  initialLife : ℚ
  color : List ℚ
  modelType : ModelType
  deriving DecidableEq

/-! Constants from `constants.ts`. -/

def GAME_WIDTH : ℚ := 800
def GAME_HEIGHT : ℚ := 600
def PLAYER_WIDTH : ℚ := 50
def PLAYER_HEIGHT : ℚ := 20
def PLAYER_SPEED : ℚ := 350
def PLAYER_Y_OFFSET : ℚ := 30
def LASER_WIDTH : ℚ := 4
def LASER_HEIGHT : ℚ := 20
def PLAYER_LASER_SPEED : ℚ := 500
def INVADER_LASER_SPEED : ℚ := 250
def LASER_COOLDOWN : ℚ := 300
def INVADER_WIDTH : ℚ := 40
def INVADER_HEIGHT : ℚ := 30
def INVADER_ROWS : ℕ := 5
def INVADER_COLS : ℕ := 11
def INVADER_SPACING_X : ℚ := 50
def INVADER_SPACING_Y : ℚ := 45
def INVADER_INITIAL_Y : ℚ := 50
def INITIAL_INVADER_SPEED : ℚ := 50
def INVADER_SPEED_INCREMENT : ℚ := 5
def INVADER_DROP_DOWN_AMOUNT : ℚ := 10
def INVADER_FIRE_CHANCE : ℚ := 1 / 1000
def INITIAL_LIVES : ℤ := 3

/-- Modelled from the spec: the depth constants `PLAYER_DEPTH`,
`LASER_DEPTH` and `INVADER_DEPTH` are imported by the engine from its
`constants` module, but that part of the constants module is not among the
provided sources.  The spec states that all core gameplay happens near
`z = 0` and that the AABB test compares all three axes, so the entities
must have positive depth for same-plane collisions to register; we fix a
positive value.  None of the verified claims depends on the exact number. -/
def PLAYER_DEPTH : ℚ := 20

/-- Modelled from the spec: see `PLAYER_DEPTH`. -/
def LASER_DEPTH : ℚ := 4

/-- Modelled from the spec: see `PLAYER_DEPTH`. -/
def INVADER_DEPTH : ℚ := 40

/-- Environment oracle: explicit streams standing for `Math.random` and
`performance.now`, and the float transcendental functions used to build
particle velocities and fov angles.  `rand n` is the value returned by the
`n`-th call of `Math.random` during the modelled computation, `perf n` the
value of the `n`-th call of `performance.now`. -/
structure Oracle where
  rand : ℕ → ℚ
  perf : ℕ → ℚ
  cos : ℚ → ℚ
  sin : ℚ → ℚ
  pi : ℚ

/-- Pressed-state of the keys the engine reads from the `InputManager`. -/
structure Keys where
  a : Bool
  d : Bool
  arrowLeft : Bool
  arrowRight : Bool
  arrowUp : Bool
  arrowDown : Bool
  space : Bool
  deriving DecidableEq

/-- The mutable fields of the `GameEngine` class. -/
structure EngineState where
  gameState : GameState
  score : ℚ
  lives : ℤ
  cameraYOffset : ℚ
  player : Player
  invaders : List Invader
  playerLasers : List Laser
  invaderLasers : List Laser
  particles : List Particle
  invaderDirection : InvDir
  invaderSpeed : ℚ
  lastPlayerFireTime : ℚ
  deriving DecidableEq

/-- The invader created at grid slot `(row, col)` by `createInvaders`. -/
def mkInvader (dateNow : ℚ) (row col : ℕ) : Invader :=
  { id := dateNow + ((row * INVADER_COLS + col : ℕ) : ℚ)
    position :=
      { x := (col : ℚ) * INVADER_SPACING_X
              + (GAME_WIDTH - (INVADER_COLS : ℚ) * INVADER_SPACING_X) / 2 + 5
        y := (GAME_HEIGHT - INVADER_INITIAL_Y - INVADER_HEIGHT)
              - (row : ℚ) * INVADER_SPACING_Y
        z := 0 }
    size := { width := INVADER_WIDTH, height := INVADER_HEIGHT, depth := INVADER_DEPTH }
    type := row
    modelType := ModelType.Invader }

/-- `createInvaders` from the game-state module.  `dateNow` is the value of
`Date.now()` at the moment the grid is created. -/
def createInvaders (dateNow : ℚ) : List Invader :=
  ((List.range INVADER_ROWS).map (fun row =>
    (List.range INVADER_COLS).map (fun col => mkInvader dateNow row col))).flatten

/-- `GameEngine.createPlayer`. -/
def createPlayer : Player :=
  { id := 1
    position := { x := (GAME_WIDTH - PLAYER_WIDTH) / 2, y := PLAYER_Y_OFFSET, z := 0 }
    size := { width := PLAYER_WIDTH, height := PLAYER_HEIGHT, depth := PLAYER_DEPTH }
    modelType := ModelType.PlayerShip }

/-- The state established by the `GameEngine` constructor. -/
def initialState (dateNow : ℚ) : EngineState :=
  { gameState := GameState.StartMenu
    score := 0
    lives := INITIAL_LIVES
    cameraYOffset := 0
    player := createPlayer
    invaders := createInvaders dateNow
    playerLasers := []
    invaderLasers := []
    particles := []
    invaderDirection := InvDir.right
    invaderSpeed := INITIAL_INVADER_SPEED
    lastPlayerFireTime := 0 }

/-- `GameEngine.resetGame`.  `dateNow` is the `Date.now()` value observed by
the `createInvaders` call inside it.  (`lastPlayerFireTime` is not reset by
the source.) -/
def resetGame (dateNow : ℚ) (s : EngineState) : EngineState :=
  { s with
    player := createPlayer
    invaders := createInvaders dateNow
    playerLasers := []
    invaderLasers := []
    particles := []
    invaderDirection := InvDir.right
    invaderSpeed := INITIAL_INVADER_SPEED
    score := 0
    lives := INITIAL_LIVES
    gameState := GameState.StartMenu
    cameraYOffset := 0 }

/-- `GameEngine.startGame`: reset, then enter the `Playing` state. -/
def startGame (dateNow : ℚ) (s : EngineState) : EngineState :=
  { resetGame dateNow s with gameState := GameState.Playing }

/-- `GameEngine.checkCollision`: 3-axis AABB overlap test. -/
def checkCollision (p1 : Pos3) (s1 : Size3) (p2 : Pos3) (s2 : Size3) : Prop :=
  p1.x < p2.x + s2.width ∧
  p1.x + s1.width > p2.x ∧
  p1.y < p2.y + s2.height ∧
  p1.y + s1.height > p2.y ∧
  p1.z < p2.z + s2.depth ∧
  p1.z + s1.depth > p2.z

instance (p1 : Pos3) (s1 : Size3) (p2 : Pos3) (s2 : Size3) :
    Decidable (checkCollision p1 s1 p2 s2) := by
  unfold checkCollision; infer_instance

/-- One particle of an explosion burst: body of the loop in
`GameEngine.createExplosion`.  `r` and `p` are the indices of the next
unconsumed `Math.random` and `performance.now` values. -/
def mkParticle (o : Oracle) (r p : ℕ) (pos : Pos3) (color : List ℚ) : Particle :=
  let angle := o.rand r * o.pi * 2
  let pitch := o.rand (r + 1) * o.pi - o.pi / 2
  let speed := o.rand (r + 2) * 150 + 50
  let life := o.rand (r + 3) * (1 / 2) + 1 / 2
  { id := o.perf p + o.rand (r + 4)
    position := pos
    size := { width := 15, height := 15, depth := 15 }
    velocity :=
      { x := o.cos angle * o.cos pitch * speed
        y := o.sin pitch * speed
        z := o.sin angle * o.cos pitch * speed }
    life := life
    initialLife := life
    color := color
    modelType := ModelType.Cube }

/-- `GameEngine.createExplosion`: the burst of `count` particles pushed onto
`this.particles`, in push order.  Each iteration consumes five `Math.random`
values and one `performance.now` value. -/
def createExplosion (o : Oracle) (pos : Pos3) (color : List ℚ) :
    ℕ → ℕ → ℕ → List Particle
  | 0, _, _ => []
  | count + 1, r, p => mkParticle o r p pos color :: createExplosion o pos color count (r + 5) (p + 1)

/-- Player movement and camera tilt: first section of `GameEngine.update`. -/
def movePlayerAndCamera (keys : Keys) (deltaTime : ℚ) (s : EngineState) : EngineState :=
  let x0 := s.player.position.x
  let x1 := if keys.a || keys.arrowLeft then x0 - PLAYER_SPEED * deltaTime else x0
  let x2 := if keys.d || keys.arrowRight then x1 + PLAYER_SPEED * deltaTime else x1
  let c1 := if keys.arrowUp then min (s.cameraYOffset + 5) 200 else s.cameraYOffset
  let c2 := if keys.arrowDown then max (c1 - 5) (-50) else c1
  { s with
    cameraYOffset := c2
    player := { s.player with
      position := { s.player.position with
        x := max 0 (min (GAME_WIDTH - PLAYER_WIDTH) x2) } } }

/-- The laser pushed by the player-shooting section of `GameEngine.update`. -/
def newPlayerLaser (pl : Player) (currentTime : ℚ) : Laser :=
  { id := currentTime
    position :=
      { x := pl.position.x + PLAYER_WIDTH / 2 - LASER_WIDTH / 2
        y := pl.position.y + PLAYER_HEIGHT
        z := pl.position.z }
    size := { width := LASER_WIDTH, height := LASER_HEIGHT, depth := LASER_DEPTH }
    modelType := ModelType.Laser }

/-- Player shooting section of `GameEngine.update`. -/
def playerShoot (keys : Keys) (currentTime : ℚ) (s : EngineState) : EngineState :=
  if keys.space = true ∧ currentTime - s.lastPlayerFireTime > LASER_COOLDOWN then
    { s with
      lastPlayerFireTime := currentTime
      playerLasers := s.playerLasers ++ [newPlayerLaser s.player currentTime] }
  else s

/-- Laser position update and off-screen pruning section of
`GameEngine.update`. -/
def moveLasers (deltaTime : ℚ) (s : EngineState) : EngineState :=
  { s with
    playerLasers :=
      (s.playerLasers.map (fun l =>
        { l with position := { l.position with y := l.position.y + PLAYER_LASER_SPEED * deltaTime } })).filter
        (fun l => decide (l.position.y < GAME_HEIGHT))
    invaderLasers :=
      (s.invaderLasers.map (fun l =>
        { l with position := { l.position with y := l.position.y - INVADER_LASER_SPEED * deltaTime } })).filter
        (fun l => decide (l.position.y > 0)) }

/-- Particle integration section of `GameEngine.update` (gravity = -98). -/
def stepParticles (deltaTime : ℚ) (s : EngineState) : EngineState :=
  { s with
    particles :=
      (s.particles.map (fun q =>
        { q with
          position :=
            { x := q.position.x + q.velocity.x * deltaTime
              y := q.position.y + q.velocity.y * deltaTime
              z := q.position.z + q.velocity.z * deltaTime }
          velocity := { q.velocity with y := q.velocity.y + (-98) * deltaTime }
          life := q.life - deltaTime })).filter (fun q => decide (q.life > 0)) }

/-- The wall-hit prediction loop of `GameEngine.update`: true iff some
invader's predicted next x position reaches or crosses a wall. -/
def invadersHitWall (invs : List Invader) (dir : InvDir) (speed deltaTime : ℚ) : Bool :=
  invs.any (fun inv =>
    let nextX := inv.position.x + (if dir = InvDir.right then speed else -speed) * deltaTime
    decide (nextX ≤ 0) || decide (nextX + INVADER_WIDTH ≥ GAME_WIDTH))

/-- Invader movement section of `GameEngine.update`: flip-and-speed-up state
update on a wall hit, then the position commit (which uses the original
direction but the already-incremented speed, with the wall-side clamp and
the drop-down applied only on hit ticks). -/
def moveInvaders (deltaTime : ℚ) (s : EngineState) : EngineState :=
  let hit := invadersHitWall s.invaders s.invaderDirection s.invaderSpeed deltaTime
  let newDir := if hit then s.invaderDirection.flip else s.invaderDirection
  let newSpeed := if hit then s.invaderSpeed + INVADER_SPEED_INCREMENT else s.invaderSpeed
  let newInvaders := s.invaders.map (fun inv =>
    let nextX := inv.position.x
      + (if s.invaderDirection = InvDir.right then newSpeed else -newSpeed) * deltaTime
    if hit then
      { inv with position :=
          { inv.position with
            x := if s.invaderDirection = InvDir.right then
                   min nextX (GAME_WIDTH - INVADER_WIDTH - 1)
                 else max nextX 1
            y := inv.position.y - INVADER_DROP_DOWN_AMOUNT } }
    else
      { inv with position := { inv.position with x := nextX } })
  { s with invaderDirection := newDir, invaderSpeed := newSpeed, invaders := newInvaders }

/-- The laser pushed by a firing invader. -/
def newInvaderLaser (perfNow : ℚ) (inv : Invader) : Laser :=
  { id := perfNow + inv.id
    position :=
      { x := inv.position.x + INVADER_WIDTH / 2 - LASER_WIDTH / 2
        y := inv.position.y
        z := inv.position.z }
    size := { width := LASER_WIDTH, height := LASER_HEIGHT, depth := LASER_DEPTH }
    modelType := ModelType.Laser }

/-- Invader shooting loop of `GameEngine.update`: one Bernoulli trial per
invader; a firing invader consumes one `performance.now` value for its
laser id. -/
def invaderFireLoop (o : Oracle) : List Invader → ℕ → ℕ → List Laser → List Laser × ℕ × ℕ
  | [], r, p, acc => (acc, r, p)
  | inv :: rest, r, p, acc =>
    if o.rand r < INVADER_FIRE_CHANCE then
      invaderFireLoop o rest (r + 1) (p + 1) (acc ++ [newInvaderLaser (o.perf p) inv])
    else invaderFireLoop o rest (r + 1) p acc

/-- Invader shooting section of `GameEngine.update` at the state level. -/
def invaderFire (o : Oracle) (r p : ℕ) (s : EngineState) : EngineState × ℕ × ℕ :=
  let res := invaderFireLoop o s.invaders r p s.invaderLasers
  ({ s with invaderLasers := res.1 }, res.2.1, res.2.2)

/-- The per-row explosion palette defined inside
`GameEngine.handleCollisions`. -/
def hcInvaderColors : List (List ℚ) :=
  [[236 / 255, 72 / 255, 153 / 255, 1],
   [168 / 255, 85 / 255, 247 / 255, 1],
   [250 / 255, 204 / 255, 21 / 255, 1],
   [34 / 255, 197 / 255, 94 / 255, 1],
   [249 / 255, 115 / 255, 22 / 255, 1]]

/-- Explosion origin for a destroyed invader (its box center). -/
def invaderExplosionPos (inv : Invader) : Pos3 :=
  { x := inv.position.x + inv.size.width / 2
    y := inv.position.y + inv.size.height / 2
    z := inv.position.z + inv.size.depth / 2 }

/-- Accumulator of the player-laser / invader double loop in
`GameEngine.handleCollisions`: the two marked-id sets (in insertion order),
the running score and particle collection, and the oracle counters. -/
structure HCAcc where
  invRm : List ℚ
  lasRm : List ℚ
  score : ℚ
  particles : List Particle
  r : ℕ
  p : ℕ

/-- Effect of one first-time hit of `laser` on `inv` in the double loop. -/
def hcHit (o : Oracle) (laser : Laser) (inv : Invader) (acc : HCAcc) : HCAcc :=
  { invRm := acc.invRm ++ [inv.id]
    lasRm := acc.lasRm ++ [laser.id]
    score := acc.score + 10 * ((INVADER_ROWS : ℚ) - (inv.type : ℚ))
    particles := acc.particles ++
      createExplosion o (invaderExplosionPos inv)
        (hcInvaderColors.getD (inv.type % hcInvaderColors.length) []) 1000 acc.r acc.p
    r := acc.r + 5 * 1000
    p := acc.p + 1000 }

/-- Inner loop of `GameEngine.handleCollisions`: one player laser against
every invader, skipping pairs whose ids are already marked. -/
def hcInner (o : Oracle) (laser : Laser) : List Invader → HCAcc → HCAcc
  | [], acc => acc
  | inv :: rest, acc =>
    if inv.id ∉ acc.invRm ∧ laser.id ∉ acc.lasRm ∧
        checkCollision laser.position laser.size inv.position inv.size then
      hcInner o laser rest (hcHit o laser inv acc)
    else hcInner o laser rest acc

/-- Initial accumulator of the double loop. -/
def hcAccInit (r p : ℕ) (s : EngineState) : HCAcc :=
  { invRm := [], lasRm := [], score := s.score, particles := s.particles, r := r, p := p }

/-- The full double loop of `GameEngine.handleCollisions`. -/
def hcFold (o : Oracle) (r p : ℕ) (s : EngineState) : HCAcc :=
  s.playerLasers.foldl (fun acc laser => hcInner o laser s.invaders acc) (hcAccInit r p s)

/-- Player-laser versus invader phase of `GameEngine.handleCollisions`:
run the double loop, then (only when something was marked) remove the
marked ids from both collections in a single filter pass each. -/
def hcPlayerPhase (o : Oracle) (r p : ℕ) (s : EngineState) : EngineState × ℕ × ℕ :=
  let acc := hcFold o r p s
  let s1 :=
    if 0 < acc.invRm.length then
      { s with
        invaders := s.invaders.filter (fun i => decide (i.id ∉ acc.invRm))
        playerLasers := s.playerLasers.filter (fun l => decide (l.id ∉ acc.lasRm)) }
    else s
  ({ s1 with score := acc.score, particles := acc.particles }, acc.r, acc.p)

/-- Accumulator of the invader-laser versus player pass. -/
structure PHAcc where
  hits : List ℚ
  particles : List Particle
  lives : ℤ
  gameState : GameState
  r : ℕ
  p : ℕ

/-- Invader-laser versus player loop of `GameEngine.handleCollisions`:
every overlapping laser is collected, spawns a 100-particle explosion at
the player's center and costs one life; at zero lives the state becomes
`GameOver`. -/
def phLoop (o : Oracle) (pl : Player) : List Laser → PHAcc → PHAcc
  | [], acc => acc
  | l :: rest, acc =>
    if checkCollision l.position l.size pl.position pl.size then
      let newLives := acc.lives - 1
      phLoop o pl rest
        { hits := acc.hits ++ [l.id]
          particles := acc.particles ++
            createExplosion o
              { x := pl.position.x + pl.size.width / 2
                y := pl.position.y + pl.size.height / 2
                z := pl.position.z + pl.size.depth / 2 }
              [1, 1, 4 / 5, 1] 100 acc.r acc.p
          lives := newLives
          gameState := if newLives ≤ 0 then GameState.GameOver else acc.gameState
          r := acc.r + 5 * 100
          p := acc.p + 100 }
    else phLoop o pl rest acc

/-- Invader-laser versus player phase of `GameEngine.handleCollisions`. -/
def phPlayerHitPhase (o : Oracle) : EngineState × ℕ × ℕ → EngineState :=
  fun t =>
    let s := t.1
    let acc := phLoop o s.player s.invaderLasers
      { hits := [], particles := s.particles, lives := s.lives,
        gameState := s.gameState, r := t.2.1, p := t.2.2 }
    let s1 := { s with particles := acc.particles, lives := acc.lives, gameState := acc.gameState }
    if 0 < acc.hits.length then
      { s1 with invaderLasers := s.invaderLasers.filter (fun l => decide (l.id ∉ acc.hits)) }
    else s1

/-- `GameEngine.handleCollisions`. -/
def handleCollisions (o : Oracle) (r p : ℕ) (s : EngineState) : EngineState :=
  phPlayerHitPhase o (hcPlayerPhase o r p s)

/-- Terminal check at the end of `GameEngine.update`. -/
def checkGameOver (s : EngineState) : EngineState :=
  if s.invaders.any (fun inv =>
        decide (inv.position.y ≤ s.player.position.y + PLAYER_HEIGHT)) || s.invaders.isEmpty then
    { s with gameState := GameState.GameOver }
  else s

/-- `GameEngine.update`: a no-op unless `Playing`, otherwise the stages in
source order.  The oracle counters start at zero each tick: the invader
shooting section is the first consumer of `Math.random` /
`performance.now` in a tick, and `handleCollisions` continues where it
stopped. -/
def update (o : Oracle) (deltaTime currentTime : ℚ) (keys : Keys) (s : EngineState) :
    EngineState :=
  if s.gameState = GameState.Playing then
    let s5 := moveInvaders deltaTime
      (stepParticles deltaTime
        (moveLasers deltaTime
          (playerShoot keys currentTime
            (movePlayerAndCamera keys deltaTime s))))
    let t6 := invaderFire o 0 0 s5
    checkGameOver (handleCollisions o t6.2.1 t6.2.2 t6.1)
  else s

/-- The data of one animation tick as observed by `update`. -/
structure Tick where
  o : Oracle
  dt : ℚ
  now : ℚ
  keys : Keys

/-- A sequence of `update` calls. -/
def runTicks (s : EngineState) (ts : List Tick) : EngineState :=
  ts.foldl (fun s t => update t.o t.dt t.now t.keys s) s

/-- External calls the UI layer can make on the engine. -/
inductive GEvent where
  | tick (t : Tick)
  | start (dateNow : ℚ)
  | reset (dateNow : ℚ)

/-- A sequence of engine calls. -/
def runEvents (s : EngineState) (es : List GEvent) : EngineState :=
  es.foldl (fun s e =>
    match e with
    | GEvent.tick t => update t.o t.dt t.now t.keys s
    | GEvent.start d => startGame d s
    | GEvent.reset d => resetGame d s) s

/-! Renderer: camera adaptation (`WebGPURenderer.resize`) and the
instance-packing loop of `WebGPURenderer.render`.  The float functions
`Math.tan` / `Math.atan` are abstracted as parameters. -/

/-- The vertical field of view computed by `WebGPURenderer.resize` and fed
to `mat4.perspective`: the base vertical fov (60 degrees) unless the new
aspect is narrower than the native 800/600 aspect, in which case a new
vertical fov preserving the base horizontal fov is derived. -/
def resizeVerticalFov (tan atan : ℚ → ℚ) (pi width height : ℚ) : ℚ :=
  let aspect := width / height
  let nativeAspect : ℚ := 800 / 600
  let baseVerticalFov := 60 * (pi / 180)
  if aspect < nativeAspect then
    let baseHorizontalFov := 2 * atan (tan (baseVerticalFov / 2) * nativeAspect)
    2 * atan (tan (baseHorizontalFov / 2) / aspect)
  else baseVerticalFov

/-- The vertical field of view as the spec words it: keep the base vertical
fov when the new aspect is at least the native aspect, otherwise
`newVertFov = 2*atan(tan(horizFov/2) / newAspect)` where
`horizFov = 2*atan(tan(baseVertFov/2) * nativeAspect)`. -/
def specVerticalFov (tan atan : ℚ → ℚ) (pi width height : ℚ) : ℚ :=
  let newAspect := width / height
  let nativeAspect : ℚ := 800 / 600
  let baseVertFov := 60 * (pi / 180)
  if nativeAspect ≤ newAspect then baseVertFov
  else
    let horizFov := 2 * atan (tan (baseVertFov / 2) * nativeAspect)
    2 * atan (tan (horizFov / 2) / newAspect)

/-- `MAX_INSTANCES` from `renderer.ts`. -/
def MAX_INSTANCES : ℕ := 5096

/-- `INSTANCE_BYTE_SIZE / 4`: floats per packed instance record. -/
def instanceFloatSize : ℕ := 16

/-- `this.instanceData.length`: capacity of the instance array in floats. -/
def instanceDataLength : ℕ := MAX_INSTANCES * instanceFloatSize

/-- `playerColor` from `renderer.ts`. -/
def playerColor : List ℚ := [0, 1, 1, 1]

/-- `playerLaserColor` from `renderer.ts`. -/
def playerLaserColor : List ℚ := [52 / 255, 211 / 255, 153 / 255, 1]

/-- `invaderLaserColor` from `renderer.ts`. -/
def invaderLaserColor : List ℚ := [239 / 255, 68 / 255, 68 / 255, 1]

/-- A `GameObject` as seen by the packing loop of `WebGPURenderer.render`.
The optional `life` / `initialLife` fields model the structural
`'life' in obj` / `'initialLife' in obj` tests (present exactly on
particles); `type` carries the invader row for palette lookup. -/
structure RObj where
  modelType : ModelType
  id : ℚ
  position : Pos3
  size : Size3
  type : ℕ
  life : Option ℚ
  initialLife : Option ℚ
  color : List ℚ
  deriving DecidableEq

/-- The RGBA color the packing loop resolves for an entity. -/
def instanceColor (playerLasers : List Laser) (ob : RObj) : List ℚ :=
  if ob.modelType = ModelType.Cube ∧ ob.initialLife.isSome then ob.color
  else if ob.modelType = ModelType.PlayerShip then playerColor
  else if ob.modelType = ModelType.Invader then
    hcInvaderColors.getD (ob.type % hcInvaderColors.length) []
  else if ob.modelType = ModelType.Laser then
    if playerLasers.any (fun l => decide (l.id = ob.id)) then playerLaserColor
    else invaderLaserColor
  else [1, 1, 1, 1]

/-- Consecutive writes into the instance array starting at float index
`base` (a `Float32Array.set` call). -/
def writesFrom (base : ℕ) : List ℚ → List (ℕ × ℚ)
  | [] => []
  | v :: vs => (base, v) :: writesFrom (base + 1) vs

/-- The writes the packing loop performs for one entity stored as packed
record number `count`: world-center position at float offsets 0-2, size at
4-6, color at 8.., `life` at 12 and `initialLife` at 13 (absent fields
write 0, matching the `'life' in obj` ternaries). -/
def entityWrites (playerLasers : List Laser) (ob : RObj) (count : ℕ) : List (ℕ × ℚ) :=
  let off := count * instanceFloatSize
  writesFrom off
      [ob.position.x + ob.size.width / 2,
       ob.position.y + ob.size.height / 2,
       ob.position.z + ob.size.depth / 2]
    ++ writesFrom (off + 4) [ob.size.width, ob.size.height, ob.size.depth]
    ++ writesFrom (off + 8) (instanceColor playerLasers ob)
    ++ [(off + 12, ob.life.getD 0), (off + 13, ob.initialLife.getD 0)]

/-- The instance-packing loop of `WebGPURenderer.render`: iterate over the
flattened entity groups, skip (`continue`) any entity whose record would
start at or beyond `instanceData.length`, otherwise emit its writes and
advance `instanceCount`.  Returns the performed writes and the final
`instanceCount`. -/
def packLoop (playerLasers : List Laser) : List RObj → ℕ → List (ℕ × ℚ) × ℕ
  | [], count => ([], count)
  | ob :: rest, count =>
    if instanceDataLength ≤ count * instanceFloatSize then packLoop playerLasers rest count
    else
      let res := packLoop playerLasers rest (count + 1)
      (entityWrites playerLasers ob count ++ res.1, res.2)

/-! Field-preservation lemmas for the stages of `update`. -/

@[simp] theorem movePlayerAndCamera_gameState (k : Keys) (dt : ℚ) (s : EngineState) :
    (movePlayerAndCamera k dt s).gameState = s.gameState := rfl

@[simp] theorem movePlayerAndCamera_score (k : Keys) (dt : ℚ) (s : EngineState) :
    (movePlayerAndCamera k dt s).score = s.score := rfl

@[simp] theorem movePlayerAndCamera_lives (k : Keys) (dt : ℚ) (s : EngineState) :
    (movePlayerAndCamera k dt s).lives = s.lives := rfl

@[simp] theorem movePlayerAndCamera_invaders (k : Keys) (dt : ℚ) (s : EngineState) :
    (movePlayerAndCamera k dt s).invaders = s.invaders := rfl

@[simp] theorem movePlayerAndCamera_playerLasers (k : Keys) (dt : ℚ) (s : EngineState) :
    (movePlayerAndCamera k dt s).playerLasers = s.playerLasers := rfl

@[simp] theorem movePlayerAndCamera_invaderLasers (k : Keys) (dt : ℚ) (s : EngineState) :
    (movePlayerAndCamera k dt s).invaderLasers = s.invaderLasers := rfl

@[simp] theorem movePlayerAndCamera_particles (k : Keys) (dt : ℚ) (s : EngineState) :
    (movePlayerAndCamera k dt s).particles = s.particles := rfl

@[simp] theorem movePlayerAndCamera_invaderDirection (k : Keys) (dt : ℚ) (s : EngineState) :
    (movePlayerAndCamera k dt s).invaderDirection = s.invaderDirection := rfl

@[simp] theorem movePlayerAndCamera_invaderSpeed (k : Keys) (dt : ℚ) (s : EngineState) :
    (movePlayerAndCamera k dt s).invaderSpeed = s.invaderSpeed := rfl

@[simp] theorem movePlayerAndCamera_lastPlayerFireTime (k : Keys) (dt : ℚ) (s : EngineState) :
    (movePlayerAndCamera k dt s).lastPlayerFireTime = s.lastPlayerFireTime := rfl

@[simp] theorem playerShoot_gameState (k : Keys) (now : ℚ) (s : EngineState) :
    (playerShoot k now s).gameState = s.gameState := by unfold playerShoot; split <;> rfl

@[simp] theorem playerShoot_score (k : Keys) (now : ℚ) (s : EngineState) :
    (playerShoot k now s).score = s.score := by unfold playerShoot; split <;> rfl

@[simp] theorem playerShoot_lives (k : Keys) (now : ℚ) (s : EngineState) :
    (playerShoot k now s).lives = s.lives := by unfold playerShoot; split <;> rfl

@[simp] theorem playerShoot_cameraYOffset (k : Keys) (now : ℚ) (s : EngineState) :
    (playerShoot k now s).cameraYOffset = s.cameraYOffset := by unfold playerShoot; split <;> rfl

@[simp] theorem playerShoot_player (k : Keys) (now : ℚ) (s : EngineState) :
    (playerShoot k now s).player = s.player := by unfold playerShoot; split <;> rfl

@[simp] theorem playerShoot_invaders (k : Keys) (now : ℚ) (s : EngineState) :
    (playerShoot k now s).invaders = s.invaders := by unfold playerShoot; split <;> rfl

@[simp] theorem playerShoot_invaderLasers (k : Keys) (now : ℚ) (s : EngineState) :
    (playerShoot k now s).invaderLasers = s.invaderLasers := by unfold playerShoot; split <;> rfl

@[simp] theorem playerShoot_particles (k : Keys) (now : ℚ) (s : EngineState) :
    (playerShoot k now s).particles = s.particles := by unfold playerShoot; split <;> rfl

@[simp] theorem playerShoot_invaderDirection (k : Keys) (now : ℚ) (s : EngineState) :
    (playerShoot k now s).invaderDirection = s.invaderDirection := by unfold playerShoot; split <;> rfl

@[simp] theorem playerShoot_invaderSpeed (k : Keys) (now : ℚ) (s : EngineState) :
    (playerShoot k now s).invaderSpeed = s.invaderSpeed := by unfold playerShoot; split <;> rfl

@[simp] theorem moveLasers_gameState (dt : ℚ) (s : EngineState) :
    (moveLasers dt s).gameState = s.gameState := rfl

@[simp] theorem moveLasers_score (dt : ℚ) (s : EngineState) :
    (moveLasers dt s).score = s.score := rfl

@[simp] theorem moveLasers_lives (dt : ℚ) (s : EngineState) :
    (moveLasers dt s).lives = s.lives := rfl

@[simp] theorem moveLasers_cameraYOffset (dt : ℚ) (s : EngineState) :
    (moveLasers dt s).cameraYOffset = s.cameraYOffset := rfl

@[simp] theorem moveLasers_player (dt : ℚ) (s : EngineState) :
    (moveLasers dt s).player = s.player := rfl

@[simp] theorem moveLasers_invaders (dt : ℚ) (s : EngineState) :
    (moveLasers dt s).invaders = s.invaders := rfl

@[simp] theorem moveLasers_particles (dt : ℚ) (s : EngineState) :
    (moveLasers dt s).particles = s.particles := rfl

@[simp] theorem moveLasers_invaderDirection (dt : ℚ) (s : EngineState) :
    (moveLasers dt s).invaderDirection = s.invaderDirection := rfl

@[simp] theorem moveLasers_invaderSpeed (dt : ℚ) (s : EngineState) :
    (moveLasers dt s).invaderSpeed = s.invaderSpeed := rfl

@[simp] theorem moveLasers_lastPlayerFireTime (dt : ℚ) (s : EngineState) :
    (moveLasers dt s).lastPlayerFireTime = s.lastPlayerFireTime := rfl

@[simp] theorem stepParticles_gameState (dt : ℚ) (s : EngineState) :
    (stepParticles dt s).gameState = s.gameState := rfl

@[simp] theorem stepParticles_score (dt : ℚ) (s : EngineState) :
    (stepParticles dt s).score = s.score := rfl

@[simp] theorem stepParticles_lives (dt : ℚ) (s : EngineState) :
    (stepParticles dt s).lives = s.lives := rfl

@[simp] theorem stepParticles_cameraYOffset (dt : ℚ) (s : EngineState) :
    (stepParticles dt s).cameraYOffset = s.cameraYOffset := rfl

@[simp] theorem stepParticles_player (dt : ℚ) (s : EngineState) :
    (stepParticles dt s).player = s.player := rfl

@[simp] theorem stepParticles_invaders (dt : ℚ) (s : EngineState) :
    (stepParticles dt s).invaders = s.invaders := rfl

@[simp] theorem stepParticles_playerLasers (dt : ℚ) (s : EngineState) :
    (stepParticles dt s).playerLasers = s.playerLasers := rfl

@[simp] theorem stepParticles_invaderLasers (dt : ℚ) (s : EngineState) :
    (stepParticles dt s).invaderLasers = s.invaderLasers := rfl

@[simp] theorem stepParticles_invaderDirection (dt : ℚ) (s : EngineState) :
    (stepParticles dt s).invaderDirection = s.invaderDirection := rfl

@[simp] theorem stepParticles_invaderSpeed (dt : ℚ) (s : EngineState) :
    (stepParticles dt s).invaderSpeed = s.invaderSpeed := rfl

@[simp] theorem stepParticles_lastPlayerFireTime (dt : ℚ) (s : EngineState) :
    (stepParticles dt s).lastPlayerFireTime = s.lastPlayerFireTime := rfl

@[simp] theorem moveInvaders_gameState (dt : ℚ) (s : EngineState) :
    (moveInvaders dt s).gameState = s.gameState := rfl

@[simp] theorem moveInvaders_score (dt : ℚ) (s : EngineState) :
    (moveInvaders dt s).score = s.score := rfl

@[simp] theorem moveInvaders_lives (dt : ℚ) (s : EngineState) :
    (moveInvaders dt s).lives = s.lives := rfl

@[simp] theorem moveInvaders_cameraYOffset (dt : ℚ) (s : EngineState) :
    (moveInvaders dt s).cameraYOffset = s.cameraYOffset := rfl

@[simp] theorem moveInvaders_player (dt : ℚ) (s : EngineState) :
    (moveInvaders dt s).player = s.player := rfl

@[simp] theorem moveInvaders_playerLasers (dt : ℚ) (s : EngineState) :
    (moveInvaders dt s).playerLasers = s.playerLasers := rfl

@[simp] theorem moveInvaders_invaderLasers (dt : ℚ) (s : EngineState) :
    (moveInvaders dt s).invaderLasers = s.invaderLasers := rfl

@[simp] theorem moveInvaders_particles (dt : ℚ) (s : EngineState) :
    (moveInvaders dt s).particles = s.particles := rfl

@[simp] theorem moveInvaders_lastPlayerFireTime (dt : ℚ) (s : EngineState) :
    (moveInvaders dt s).lastPlayerFireTime = s.lastPlayerFireTime := rfl

@[simp] theorem invaderFire_gameState (o : Oracle) (r p : ℕ) (s : EngineState) :
    (invaderFire o r p s).1.gameState = s.gameState := rfl

@[simp] theorem invaderFire_score (o : Oracle) (r p : ℕ) (s : EngineState) :
    (invaderFire o r p s).1.score = s.score := rfl

@[simp] theorem invaderFire_lives (o : Oracle) (r p : ℕ) (s : EngineState) :
    (invaderFire o r p s).1.lives = s.lives := rfl

@[simp] theorem invaderFire_cameraYOffset (o : Oracle) (r p : ℕ) (s : EngineState) :
    (invaderFire o r p s).1.cameraYOffset = s.cameraYOffset := rfl

@[simp] theorem invaderFire_player (o : Oracle) (r p : ℕ) (s : EngineState) :
    (invaderFire o r p s).1.player = s.player := rfl

@[simp] theorem invaderFire_invaders (o : Oracle) (r p : ℕ) (s : EngineState) :
    (invaderFire o r p s).1.invaders = s.invaders := rfl

@[simp] theorem invaderFire_playerLasers (o : Oracle) (r p : ℕ) (s : EngineState) :
    (invaderFire o r p s).1.playerLasers = s.playerLasers := rfl

@[simp] theorem invaderFire_particles (o : Oracle) (r p : ℕ) (s : EngineState) :
    (invaderFire o r p s).1.particles = s.particles := rfl

@[simp] theorem invaderFire_invaderDirection (o : Oracle) (r p : ℕ) (s : EngineState) :
    (invaderFire o r p s).1.invaderDirection = s.invaderDirection := rfl

@[simp] theorem invaderFire_invaderSpeed (o : Oracle) (r p : ℕ) (s : EngineState) :
    (invaderFire o r p s).1.invaderSpeed = s.invaderSpeed := rfl

@[simp] theorem invaderFire_lastPlayerFireTime (o : Oracle) (r p : ℕ) (s : EngineState) :
    (invaderFire o r p s).1.lastPlayerFireTime = s.lastPlayerFireTime := rfl

@[simp] theorem hcPlayerPhase_gameState (o : Oracle) (r p : ℕ) (s : EngineState) :
    (hcPlayerPhase o r p s).1.gameState = s.gameState := by
  unfold hcPlayerPhase; dsimp only; split <;> rfl

@[simp] theorem hcPlayerPhase_lives (o : Oracle) (r p : ℕ) (s : EngineState) :
    (hcPlayerPhase o r p s).1.lives = s.lives := by
  unfold hcPlayerPhase; dsimp only; split <;> rfl

@[simp] theorem hcPlayerPhase_cameraYOffset (o : Oracle) (r p : ℕ) (s : EngineState) :
    (hcPlayerPhase o r p s).1.cameraYOffset = s.cameraYOffset := by
  unfold hcPlayerPhase; dsimp only; split <;> rfl

@[simp] theorem hcPlayerPhase_player (o : Oracle) (r p : ℕ) (s : EngineState) :
    (hcPlayerPhase o r p s).1.player = s.player := by
  unfold hcPlayerPhase; dsimp only; split <;> rfl

@[simp] theorem hcPlayerPhase_invaderLasers (o : Oracle) (r p : ℕ) (s : EngineState) :
    (hcPlayerPhase o r p s).1.invaderLasers = s.invaderLasers := by
  unfold hcPlayerPhase; dsimp only; split <;> rfl

@[simp] theorem hcPlayerPhase_invaderDirection (o : Oracle) (r p : ℕ) (s : EngineState) :
    (hcPlayerPhase o r p s).1.invaderDirection = s.invaderDirection := by
  unfold hcPlayerPhase; dsimp only; split <;> rfl

@[simp] theorem hcPlayerPhase_invaderSpeed (o : Oracle) (r p : ℕ) (s : EngineState) :
    (hcPlayerPhase o r p s).1.invaderSpeed = s.invaderSpeed := by
  unfold hcPlayerPhase; dsimp only; split <;> rfl

@[simp] theorem hcPlayerPhase_lastPlayerFireTime (o : Oracle) (r p : ℕ) (s : EngineState) :
    (hcPlayerPhase o r p s).1.lastPlayerFireTime = s.lastPlayerFireTime := by
  unfold hcPlayerPhase; dsimp only; split <;> rfl

@[simp] theorem hcPlayerPhase_score (o : Oracle) (r p : ℕ) (s : EngineState) :
    (hcPlayerPhase o r p s).1.score = (hcFold o r p s).score := rfl

@[simp] theorem hcPlayerPhase_particles (o : Oracle) (r p : ℕ) (s : EngineState) :
    (hcPlayerPhase o r p s).1.particles = (hcFold o r p s).particles := rfl

@[simp] theorem phPlayerHitPhase_score (o : Oracle) (t : EngineState × ℕ × ℕ) :
    (phPlayerHitPhase o t).score = t.1.score := by
  unfold phPlayerHitPhase; dsimp only; split <;> rfl

@[simp] theorem phPlayerHitPhase_cameraYOffset (o : Oracle) (t : EngineState × ℕ × ℕ) :
    (phPlayerHitPhase o t).cameraYOffset = t.1.cameraYOffset := by
  unfold phPlayerHitPhase; dsimp only; split <;> rfl

@[simp] theorem phPlayerHitPhase_player (o : Oracle) (t : EngineState × ℕ × ℕ) :
    (phPlayerHitPhase o t).player = t.1.player := by
  unfold phPlayerHitPhase; dsimp only; split <;> rfl

@[simp] theorem phPlayerHitPhase_invaders (o : Oracle) (t : EngineState × ℕ × ℕ) :
    (phPlayerHitPhase o t).invaders = t.1.invaders := by
  unfold phPlayerHitPhase; dsimp only; split <;> rfl

@[simp] theorem phPlayerHitPhase_playerLasers (o : Oracle) (t : EngineState × ℕ × ℕ) :
    (phPlayerHitPhase o t).playerLasers = t.1.playerLasers := by
  unfold phPlayerHitPhase; dsimp only; split <;> rfl

@[simp] theorem phPlayerHitPhase_invaderDirection (o : Oracle) (t : EngineState × ℕ × ℕ) :
    (phPlayerHitPhase o t).invaderDirection = t.1.invaderDirection := by
  unfold phPlayerHitPhase; dsimp only; split <;> rfl

@[simp] theorem phPlayerHitPhase_invaderSpeed (o : Oracle) (t : EngineState × ℕ × ℕ) :
    (phPlayerHitPhase o t).invaderSpeed = t.1.invaderSpeed := by
  unfold phPlayerHitPhase; dsimp only; split <;> rfl

@[simp] theorem phPlayerHitPhase_lastPlayerFireTime (o : Oracle) (t : EngineState × ℕ × ℕ) :
    (phPlayerHitPhase o t).lastPlayerFireTime = t.1.lastPlayerFireTime := by
  unfold phPlayerHitPhase; dsimp only; split <;> rfl

@[simp] theorem checkGameOver_score (s : EngineState) :
    (checkGameOver s).score = s.score := by unfold checkGameOver; split <;> rfl

@[simp] theorem checkGameOver_lives (s : EngineState) :
    (checkGameOver s).lives = s.lives := by unfold checkGameOver; split <;> rfl

@[simp] theorem checkGameOver_cameraYOffset (s : EngineState) :
    (checkGameOver s).cameraYOffset = s.cameraYOffset := by unfold checkGameOver; split <;> rfl

@[simp] theorem checkGameOver_player (s : EngineState) :
    (checkGameOver s).player = s.player := by unfold checkGameOver; split <;> rfl

@[simp] theorem checkGameOver_invaders (s : EngineState) :
    (checkGameOver s).invaders = s.invaders := by unfold checkGameOver; split <;> rfl

@[simp] theorem checkGameOver_playerLasers (s : EngineState) :
    (checkGameOver s).playerLasers = s.playerLasers := by unfold checkGameOver; split <;> rfl

@[simp] theorem checkGameOver_invaderLasers (s : EngineState) :
    (checkGameOver s).invaderLasers = s.invaderLasers := by unfold checkGameOver; split <;> rfl

@[simp] theorem checkGameOver_particles (s : EngineState) :
    (checkGameOver s).particles = s.particles := by unfold checkGameOver; split <;> rfl

@[simp] theorem checkGameOver_invaderDirection (s : EngineState) :
    (checkGameOver s).invaderDirection = s.invaderDirection := by unfold checkGameOver; split <;> rfl

@[simp] theorem checkGameOver_invaderSpeed (s : EngineState) :
    (checkGameOver s).invaderSpeed = s.invaderSpeed := by unfold checkGameOver; split <;> rfl

@[simp] theorem checkGameOver_lastPlayerFireTime (s : EngineState) :
    (checkGameOver s).lastPlayerFireTime = s.lastPlayerFireTime := by unfold checkGameOver; split <;> rfl

theorem update_not_playing (o : Oracle) (dt now : ℚ) (k : Keys) (s : EngineState)
    (h : ¬ s.gameState = GameState.Playing) : update o dt now k s = s := by
  unfold update; exact if_neg h

@[simp] theorem handleCollisions_eq (o : Oracle) (r p : ℕ) (s : EngineState) :
    handleCollisions o r p s = phPlayerHitPhase o (hcPlayerPhase o r p s) := rfl

theorem update_playing (o : Oracle) (dt now : ℚ) (k : Keys) (s : EngineState)
    (h : s.gameState = GameState.Playing) :
    update o dt now k s =
      checkGameOver (handleCollisions o
        (invaderFire o 0 0 (moveInvaders dt (stepParticles dt (moveLasers dt
          (playerShoot k now (movePlayerAndCamera k dt s)))))).2.1
        (invaderFire o 0 0 (moveInvaders dt (stepParticles dt (moveLasers dt
          (playerShoot k now (movePlayerAndCamera k dt s)))))).2.2
        (invaderFire o 0 0 (moveInvaders dt (stepParticles dt (moveLasers dt
          (playerShoot k now (movePlayerAndCamera k dt s)))))).1) := by
  unfold update; rw [if_pos h]

theorem update_player (o : Oracle) (dt now : ℚ) (k : Keys) (s : EngineState)
    (h : s.gameState = GameState.Playing) :
    (update o dt now k s).player = (movePlayerAndCamera k dt s).player := by
  rw [update_playing o dt now k s h]; simp

theorem update_cameraYOffset_eq (o : Oracle) (dt now : ℚ) (k : Keys) (s : EngineState)
    (h : s.gameState = GameState.Playing) :
    (update o dt now k s).cameraYOffset = (movePlayerAndCamera k dt s).cameraYOffset := by
  rw [update_playing o dt now k s h]; simp

theorem update_invaderDirection_eq (o : Oracle) (dt now : ℚ) (k : Keys) (s : EngineState)
    (h : s.gameState = GameState.Playing) :
    (update o dt now k s).invaderDirection =
      (moveInvaders dt (stepParticles dt (moveLasers dt
        (playerShoot k now (movePlayerAndCamera k dt s))))).invaderDirection := by
  rw [update_playing o dt now k s h]; simp

theorem update_lastPlayerFireTime_eq (o : Oracle) (dt now : ℚ) (k : Keys) (s : EngineState)
    (h : s.gameState = GameState.Playing) :
    (update o dt now k s).lastPlayerFireTime =
      (playerShoot k now (movePlayerAndCamera k dt s)).lastPlayerFireTime := by
  rw [update_playing o dt now k s h]; simp

theorem playerShoot_lastPlayerFireTime (k : Keys) (now : ℚ) (s : EngineState) :
    (playerShoot k now s).lastPlayerFireTime =
      if k.space = true ∧ now - s.lastPlayerFireTime > LASER_COOLDOWN then now
      else s.lastPlayerFireTime := by
  unfold playerShoot; split <;> simp_all

theorem playerShoot_playerLasers (k : Keys) (now : ℚ) (s : EngineState) :
    (playerShoot k now s).playerLasers =
      s.playerLasers ++
        (if k.space = true ∧ now - s.lastPlayerFireTime > LASER_COOLDOWN then
          [newPlayerLaser s.player now] else []) := by
  unfold playerShoot; split <;> simp_all

theorem movePlayerAndCamera_cameraYOffset (k : Keys) (dt : ℚ) (s : EngineState) :
    (movePlayerAndCamera k dt s).cameraYOffset =
      (if k.arrowDown then
        max ((if k.arrowUp then min (s.cameraYOffset + 5) 200 else s.cameraYOffset) - 5) (-50)
       else (if k.arrowUp then min (s.cameraYOffset + 5) 200 else s.cameraYOffset)) := rfl

theorem movePlayerAndCamera_x_bounds (k : Keys) (dt : ℚ) (s : EngineState) :
    0 ≤ (movePlayerAndCamera k dt s).player.position.x ∧
      (movePlayerAndCamera k dt s).player.position.x ≤ GAME_WIDTH - PLAYER_WIDTH := by
  unfold movePlayerAndCamera; dsimp only
  exact ⟨le_max_left 0 _,
    max_le (by norm_num [GAME_WIDTH, PLAYER_WIDTH]) (min_le_left _ _)⟩

theorem runTicks_induct (P : EngineState → Prop)
    (step : ∀ (s : EngineState) (t : Tick), P s → P (update t.o t.dt t.now t.keys s)) :
    ∀ ts s, P s → P (runTicks s ts) := by
  intro ts
  induction ts with
  | nil => intro s h; exact h
  | cons t ts ih => intro s h; exact ih _ (step s t h)

theorem runEvents_induct (P : EngineState → Prop)
    (htick : ∀ (s : EngineState) (t : Tick), P s → P (update t.o t.dt t.now t.keys s))
    (hstart : ∀ (s : EngineState) (d : ℚ), P s → P (startGame d s))
    (hreset : ∀ (s : EngineState) (d : ℚ), P s → P (resetGame d s)) :
    ∀ es s, P s → P (runEvents s es) := by
  intro es
  induction es with
  | nil => intro s h; exact h
  | cons e es ih =>
    intro s h
    cases e with
    | tick t => exact ih _ (htick s t h)
    | start d => exact ih _ (hstart s d h)
    | reset d => exact ih _ (hreset s d h)

/-! Invader grid shape. -/

theorem createInvaders_proj (d d' : ℚ) :
    (createInvaders d).map (fun i => (i.position, i.size, i.type))
      = (createInvaders d').map (fun i => (i.position, i.size, i.type)) := by
  simp only [createInvaders, List.map_flatten, List.map_map, Function.comp_def,
    mkInvader]

/-- A constant environment oracle used to instantiate witnesses. -/
def zeroOracle : Oracle :=
  { rand := fun _ => 0, perf := fun _ => 0, cos := fun _ => 0, sin := fun _ => 0, pi := 0 }

/-- The all-released key state. -/
def noKeys : Keys :=
  { a := false, d := false, arrowLeft := false, arrowRight := false,
    arrowUp := false, arrowDown := false, space := false }

/-- C7: calling `resetGame` after reaching any engine state restores score 0,
lives `INITIAL_LIVES`, the canonical invader grid layout (positions, sizes
and row types agree with a freshly created round-start grid), direction
`right`, the initial shared speed, and empty laser and particle
collections. -/
theorem c7_reset_restores_canonical_state (s : EngineState) (d d0 : ℚ) :
    (resetGame d s).score = 0 ∧
    (resetGame d s).lives = INITIAL_LIVES ∧
    ((resetGame d s).invaders.map (fun i => (i.position, i.size, i.type))
      = (createInvaders d0).map (fun i => (i.position, i.size, i.type))) ∧
    (resetGame d s).invaderDirection = InvDir.right ∧
    (resetGame d s).invaderSpeed = INITIAL_INVADER_SPEED ∧
    (resetGame d s).playerLasers = [] ∧
    (resetGame d s).invaderLasers = [] ∧
    (resetGame d s).particles = [] :=
  ⟨rfl, rfl, createInvaders_proj d d0, rfl, rfl, rfl, rfl, rfl⟩

/-- C8: for positive viewport dimensions, the vertical fov computed by
`resize` agrees with the spec's formula: the base vertical fov whenever the
new aspect is at least the native 800/600 aspect, and otherwise the
horizontal-fov-preserving derivation. -/
theorem c8_resize_fov_matches_spec (tan atan : ℚ → ℚ) (pi width height : ℚ)
    (hw : 0 < width) (hh : 0 < height) :
    resizeVerticalFov tan atan pi width height = specVerticalFov tan atan pi width height ∧
    ((800 : ℚ) / 600 ≤ width / height →
      resizeVerticalFov tan atan pi width height = 60 * (pi / 180)) ∧
    (width / height < (800 : ℚ) / 600 →
      resizeVerticalFov tan atan pi width height
        = 2 * atan (tan ((2 * atan (tan ((60 * (pi / 180)) / 2) * (800 / 600))) / 2)
            / (width / height))) := by
  simp only [resizeVerticalFov, specVerticalFov]
  refine ⟨?_, ?_, ?_⟩
  · by_cases h : width / height < (800 : ℚ) / 600
    · rw [if_pos h, if_neg (not_le.mpr h)]
    · rw [if_neg h, if_pos (not_lt.mp h)]
  · intro h; rw [if_neg (not_lt.mpr h)]
  · intro h; rw [if_pos h]

/-- Witness for C8 at a concrete portrait viewport. -/
theorem c8_resize_fov_matches_spec_witness :
    (0 : ℚ) < 400 ∧ (0 : ℚ) < 800 ∧
    (resizeVerticalFov id id 1 400 800 = specVerticalFov id id 1 400 800 ∧
     ((800 : ℚ) / 600 ≤ 400 / 800 →
       resizeVerticalFov id id 1 400 800 = 60 * (1 / 180)) ∧
     ((400 : ℚ) / 800 < (800 : ℚ) / 600 →
       resizeVerticalFov id id 1 400 800
         = 2 * id (id ((2 * id (id ((60 * ((1 : ℚ) / 180)) / 2) * (800 / 600))) / 2)
             / (400 / 800)))) :=
  ⟨by norm_num, by norm_num,
    c8_resize_fov_matches_spec id id 1 400 800 (by norm_num) (by norm_num)⟩

/-- C5: starting from a freshly started game, for every sequence of update
ticks with non-negative `dt` the player's x position stays within
`[0, GAME_WIDTH - PLAYER_WIDTH]`. -/
theorem c5_player_x_in_bounds (d : ℚ) (ts : List Tick) (hdt : ∀ t ∈ ts, 0 ≤ t.dt) :
    0 ≤ (runTicks (startGame d (initialState d)) ts).player.position.x ∧
    (runTicks (startGame d (initialState d)) ts).player.position.x
      ≤ GAME_WIDTH - PLAYER_WIDTH := by
  refine runTicks_induct
    (fun s => 0 ≤ s.player.position.x ∧ s.player.position.x ≤ GAME_WIDTH - PLAYER_WIDTH)
    ?_ ts _ ?_
  · intro s t hP
    by_cases h : s.gameState = GameState.Playing
    · rw [show (update t.o t.dt t.now t.keys s).player.position.x
            = (movePlayerAndCamera t.keys t.dt s).player.position.x from by
          rw [update_player t.o t.dt t.now t.keys s h]]
      exact movePlayerAndCamera_x_bounds t.keys t.dt s
    · rw [update_not_playing t.o t.dt t.now t.keys s h]; exact hP
  · constructor <;>
      norm_num [startGame, resetGame, createPlayer, GAME_WIDTH, PLAYER_WIDTH]

/-- Witness for C5: two concrete ticks with movement keys held. -/
theorem c5_player_x_in_bounds_witness :
    (∀ t ∈ [Tick.mk zeroOracle 1 0 noKeys, Tick.mk zeroOracle 2 16 noKeys], 0 ≤ t.dt) ∧
    (0 ≤ (runTicks (startGame 0 (initialState 0))
        [Tick.mk zeroOracle 1 0 noKeys, Tick.mk zeroOracle 2 16 noKeys]).player.position.x ∧
     (runTicks (startGame 0 (initialState 0))
        [Tick.mk zeroOracle 1 0 noKeys, Tick.mk zeroOracle 2 16 noKeys]).player.position.x
       ≤ GAME_WIDTH - PLAYER_WIDTH) := by
  refine ⟨?_, c5_player_x_in_bounds 0 _ ?_⟩ <;>
  · intro t ht
    fin_cases ht <;> norm_num

/-! Camera offset (C10). -/

theorem camera_step_bounds (k : Keys) (c : ℚ) (h1 : -50 ≤ c) (h2 : c ≤ 200) :
    -50 ≤ (if k.arrowDown then
            max ((if k.arrowUp then min (c + 5) 200 else c) - 5) (-50)
           else (if k.arrowUp then min (c + 5) 200 else c)) ∧
    (if k.arrowDown then
        max ((if k.arrowUp then min (c + 5) 200 else c) - 5) (-50)
     else (if k.arrowUp then min (c + 5) 200 else c)) ≤ 200 := by
  have hc1a : -50 ≤ (if k.arrowUp then min (c + 5) 200 else c) := by
    split
    · exact le_min (by linarith) (by norm_num)
    · exact h1
  have hc1b : (if k.arrowUp then min (c + 5) 200 else c) ≤ 200 := by
    split
    · exact min_le_right _ _
    · exact h2
  constructor
  · split
    · exact le_max_right _ _
    · exact hc1a
  · split
    · exact max_le (by linarith) (by norm_num)
    · exact hc1b

/-- Keys with only the camera-up binding held. -/
def upKeys : Keys := { noKeys with arrowUp := true }

/-- C10: from a fresh engine, under any sequence of `update` / `startGame` /
`resetGame` calls the camera vertical offset stays within `[-50, 200]`;
moreover on every `Playing` tick the full update changes the offset exactly
by the add-5-capped-at-200 / subtract-5-floored-at-minus-50 rule,
independently of `deltaTime` and the oracle. -/
theorem c10_camera_offset_bounds (d : ℚ) (es : List GEvent) (o : Oracle)
    (dt now : ℚ) (k : Keys) (s : EngineState)
    (h : s.gameState = GameState.Playing) :
    (-50 ≤ (runEvents (initialState d) es).cameraYOffset ∧
      (runEvents (initialState d) es).cameraYOffset ≤ 200) ∧
    (update o dt now k s).cameraYOffset =
      (if k.arrowDown then
        max ((if k.arrowUp then min (s.cameraYOffset + 5) 200 else s.cameraYOffset) - 5) (-50)
       else (if k.arrowUp then min (s.cameraYOffset + 5) 200 else s.cameraYOffset)) := by
  constructor
  · refine runEvents_induct
      (fun s => -50 ≤ s.cameraYOffset ∧ s.cameraYOffset ≤ 200) ?_ ?_ ?_ es _ ?_
    · intro s t hP
      by_cases hp : s.gameState = GameState.Playing
      · rw [show (update t.o t.dt t.now t.keys s).cameraYOffset
              = (movePlayerAndCamera t.keys t.dt s).cameraYOffset from
            update_cameraYOffset_eq t.o t.dt t.now t.keys s hp,
          movePlayerAndCamera_cameraYOffset]
        exact camera_step_bounds t.keys s.cameraYOffset hP.1 hP.2
      · rw [update_not_playing t.o t.dt t.now t.keys s hp]; exact hP
    · intro s d' _; exact ⟨by norm_num [startGame, resetGame], by norm_num [startGame, resetGame]⟩
    · intro s d' _; exact ⟨by norm_num [resetGame], by norm_num [resetGame]⟩
    · exact ⟨by norm_num [initialState], by norm_num [initialState]⟩
  · rw [update_cameraYOffset_eq o dt now k s h, movePlayerAndCamera_cameraYOffset]

/-- Witness for C10 at a concrete start-then-tick event sequence. -/
theorem c10_camera_offset_bounds_witness :
    ((-50 ≤ (runEvents (initialState 0)
        [GEvent.start 0, GEvent.tick (Tick.mk zeroOracle 1 0 upKeys)]).cameraYOffset ∧
      (runEvents (initialState 0)
        [GEvent.start 0, GEvent.tick (Tick.mk zeroOracle 1 0 upKeys)]).cameraYOffset ≤ 200) ∧
     (update zeroOracle 1 0 upKeys (startGame 0 (initialState 0))).cameraYOffset =
       (if upKeys.arrowDown then
         max ((if upKeys.arrowUp then
                min ((startGame 0 (initialState 0)).cameraYOffset + 5) 200
               else (startGame 0 (initialState 0)).cameraYOffset) - 5) (-50)
        else (if upKeys.arrowUp then
                min ((startGame 0 (initialState 0)).cameraYOffset + 5) 200
              else (startGame 0 (initialState 0)).cameraYOffset))) :=
  c10_camera_offset_bounds 0 [GEvent.start 0, GEvent.tick (Tick.mk zeroOracle 1 0 upKeys)]
    zeroOracle 1 0 upKeys (startGame 0 (initialState 0)) rfl

/-! Invader wall bounce (C2). -/

theorem moveInvaders_invaderDirection (dt : ℚ) (s : EngineState) :
    (moveInvaders dt s).invaderDirection =
      if invadersHitWall s.invaders s.invaderDirection s.invaderSpeed dt
      then s.invaderDirection.flip else s.invaderDirection := rfl

theorem moveInvaders_invaderSpeed (dt : ℚ) (s : EngineState) :
    (moveInvaders dt s).invaderSpeed =
      if invadersHitWall s.invaders s.invaderDirection s.invaderSpeed dt
      then s.invaderSpeed + INVADER_SPEED_INCREMENT else s.invaderSpeed := rfl

theorem moveInvaders_y_map (dt : ℚ) (s : EngineState) :
    (moveInvaders dt s).invaders.map (fun i => i.position.y)
      = s.invaders.map (fun i => i.position.y -
          (if invadersHitWall s.invaders s.invaderDirection s.invaderSpeed dt
           then INVADER_DROP_DOWN_AMOUNT else 0)) := by
  unfold moveInvaders; dsimp only
  rw [List.map_map]
  apply List.map_congr_left
  intro inv _
  by_cases hb : invadersHitWall s.invaders s.invaderDirection s.invaderSpeed dt = true
  · simp [hb]
  · simp [hb]

/-- C2: on every `Playing` tick the shared invader direction after the full
update is flipped exactly when some invader's predicted next x position
(current x plus the signed shared speed times dt) reaches or crosses a wall
(so it flips at most once per tick); the drop-down offset is subtracted
from every invader's committed y exactly on such flip ticks, and the shared
speed is incremented exactly then. -/
theorem c2_direction_flips_once_on_wall_hit (o : Oracle) (dt now : ℚ) (k : Keys)
    (s : EngineState) (h : s.gameState = GameState.Playing) :
    ((update o dt now k s).invaderDirection =
      if invadersHitWall s.invaders s.invaderDirection s.invaderSpeed dt
      then s.invaderDirection.flip else s.invaderDirection) ∧
    ((moveInvaders dt s).invaders.map (fun i => i.position.y)
      = s.invaders.map (fun i => i.position.y -
          (if invadersHitWall s.invaders s.invaderDirection s.invaderSpeed dt
           then INVADER_DROP_DOWN_AMOUNT else 0))) ∧
    ((moveInvaders dt s).invaderSpeed =
      if invadersHitWall s.invaders s.invaderDirection s.invaderSpeed dt
      then s.invaderSpeed + INVADER_SPEED_INCREMENT else s.invaderSpeed) := by
  refine ⟨?_, moveInvaders_y_map dt s, moveInvaders_invaderSpeed dt s⟩
  rw [update_invaderDirection_eq o dt now k s h, moveInvaders_invaderDirection]
  simp

/-- Witness for C2 at a concrete started game and one tick. -/
theorem c2_direction_flips_once_on_wall_hit_witness :
    (((update zeroOracle 1 0 noKeys (startGame 0 (initialState 0))).invaderDirection =
      if invadersHitWall (startGame 0 (initialState 0)).invaders
          (startGame 0 (initialState 0)).invaderDirection
          (startGame 0 (initialState 0)).invaderSpeed 1
      then (startGame 0 (initialState 0)).invaderDirection.flip
      else (startGame 0 (initialState 0)).invaderDirection) ∧
     ((moveInvaders 1 (startGame 0 (initialState 0))).invaders.map (fun i => i.position.y)
      = (startGame 0 (initialState 0)).invaders.map (fun i => i.position.y -
          (if invadersHitWall (startGame 0 (initialState 0)).invaders
              (startGame 0 (initialState 0)).invaderDirection
              (startGame 0 (initialState 0)).invaderSpeed 1
           then INVADER_DROP_DOWN_AMOUNT else 0))) ∧
     ((moveInvaders 1 (startGame 0 (initialState 0))).invaderSpeed =
      if invadersHitWall (startGame 0 (initialState 0)).invaders
          (startGame 0 (initialState 0)).invaderDirection
          (startGame 0 (initialState 0)).invaderSpeed 1
      then (startGame 0 (initialState 0)).invaderSpeed + INVADER_SPEED_INCREMENT
      else (startGame 0 (initialState 0)).invaderSpeed)) :=
  c2_direction_flips_once_on_wall_hit zeroOracle 1 0 noKeys (startGame 0 (initialState 0)) rfl

/-! Player fire cooldown (C6). -/

/-- Number of player lasers spawned by one `update` call: one exactly when
the engine is `Playing`, the fire key is held and the cooldown has
elapsed. -/
def spawnCount (s : EngineState) (k : Keys) (now : ℚ) : ℕ :=
  if s.gameState = GameState.Playing ∧ k.space = true ∧
      now - s.lastPlayerFireTime > LASER_COOLDOWN then 1 else 0

/-- Keys with only the fire binding held. -/
def fireKeys : Keys := { noKeys with space := true }

/-- C6: on a `Playing` tick the shooting stage appends a laser exactly when
the fire key is held and `now - lastFireTime > cooldown`, and a spawn sets
`lastPlayerFireTime` to the tick's timestamp through the full update;
consequently two consecutive updates whose timestamps differ by less than
the cooldown spawn at most one laser in total. -/
theorem c6_fire_cooldown (o : Oracle) (dt now now2 : ℚ) (k k2 : Keys) (s : EngineState) :
    (s.gameState = GameState.Playing →
      ((playerShoot k now (movePlayerAndCamera k dt s)).playerLasers
        = s.playerLasers ++
          (if k.space = true ∧ now - s.lastPlayerFireTime > LASER_COOLDOWN then
            [newPlayerLaser (movePlayerAndCamera k dt s).player now] else [])) ∧
      (update o dt now k s).lastPlayerFireTime =
        (if k.space = true ∧ now - s.lastPlayerFireTime > LASER_COOLDOWN then now
         else s.lastPlayerFireTime)) ∧
    (|now2 - now| < LASER_COOLDOWN →
      spawnCount s k now + spawnCount (update o dt now k s) k2 now2 ≤ 1) := by
  constructor
  · intro h
    constructor
    · rw [playerShoot_playerLasers]; simp
    · rw [update_lastPlayerFireTime_eq o dt now k s h, playerShoot_lastPlayerFireTime]; simp
  · intro habs
    by_cases h1 : s.gameState = GameState.Playing
    · by_cases h2 : k.space = true ∧ now - s.lastPlayerFireTime > LASER_COOLDOWN
      · have hlf : (update o dt now k s).lastPlayerFireTime = now := by
          rw [update_lastPlayerFireTime_eq o dt now k s h1, playerShoot_lastPlayerFireTime]
          simp [h2]
        have h3 : now2 - now < LASER_COOLDOWN := lt_of_le_of_lt (le_abs_self _) habs
        have h4 : ¬ now2 - (update o dt now k s).lastPlayerFireTime > LASER_COOLDOWN := by
          rw [hlf]; linarith
        simp [spawnCount, h1, h2, h4]
      · have : spawnCount s k now = 0 := by simp [spawnCount, h2]
        rw [this]
        have : spawnCount (update o dt now k s) k2 now2 ≤ 1 := by
          unfold spawnCount; split <;> norm_num
        omega
    · have hu : update o dt now k s = s := update_not_playing o dt now k s h1
      simp [spawnCount, h1, hu]

/-- Witness for C6: a started game, a spawning tick at `now = 301` and a
second tick at `now = 302`. -/
theorem c6_fire_cooldown_witness :
    (((playerShoot fireKeys 301 (movePlayerAndCamera fireKeys 1 (startGame 0 (initialState 0)))).playerLasers
        = (startGame 0 (initialState 0)).playerLasers ++
          (if fireKeys.space = true ∧
              301 - (startGame 0 (initialState 0)).lastPlayerFireTime > LASER_COOLDOWN then
            [newPlayerLaser (movePlayerAndCamera fireKeys 1 (startGame 0 (initialState 0))).player 301]
          else [])) ∧
     (update zeroOracle 1 301 fireKeys (startGame 0 (initialState 0))).lastPlayerFireTime =
        (if fireKeys.space = true ∧
            301 - (startGame 0 (initialState 0)).lastPlayerFireTime > LASER_COOLDOWN then 301
         else (startGame 0 (initialState 0)).lastPlayerFireTime)) ∧
    spawnCount (startGame 0 (initialState 0)) fireKeys 301 +
      spawnCount (update zeroOracle 1 301 fireKeys (startGame 0 (initialState 0))) fireKeys 302 ≤ 1 :=
  ⟨(c6_fire_cooldown zeroOracle 1 301 302 fireKeys fireKeys (startGame 0 (initialState 0))).1 rfl,
   (c6_fire_cooldown zeroOracle 1 301 302 fireKeys fireKeys (startGame 0 (initialState 0))).2
     (by rw [show (302 : ℚ) - 301 = 1 by norm_num, abs_one]; norm_num [LASER_COOLDOWN])⟩

/-! Instance packing (C9). -/

theorem packLoop_nil (pls : List Laser) (c : ℕ) : packLoop pls [] c = ([], c) := rfl

theorem packLoop_cons (pls : List Laser) (ob : RObj) (rest : List RObj) (c : ℕ) :
    packLoop pls (ob :: rest) c =
      if instanceDataLength ≤ c * instanceFloatSize then packLoop pls rest c
      else (entityWrites pls ob c ++ (packLoop pls rest (c + 1)).1,
            (packLoop pls rest (c + 1)).2) := rfl

theorem writesFrom_mem_bound (l : List ℚ) :
    ∀ (b : ℕ), ∀ w ∈ writesFrom b l, b ≤ w.1 ∧ w.1 < b + l.length := by
  induction l with
  | nil => intro b w hw; simp [writesFrom] at hw
  | cons v vs ih =>
    intro b w hw
    rw [writesFrom] at hw
    rcases List.mem_cons.mp hw with h | h
    · subst h; simp
    · have := ih (b + 1) w h
      constructor
      · omega
      · simpa [List.length_cons, Nat.add_comm, Nat.add_left_comm] using this.2

theorem instanceColor_length (pls : List Laser) (ob : RObj) (h : ob.color.length = 4) :
    (instanceColor pls ob).length = 4 := by
  unfold instanceColor
  split_ifs <;>
    first
      | exact h
      | rfl
      | · have h5 : ob.type % hcInvaderColors.length < 5 := by
            have : hcInvaderColors.length = 5 := rfl
            rw [this]; omega
          generalize hm : ob.type % hcInvaderColors.length = m at h5
          interval_cases m <;> rfl

theorem entityWrites_bound (pls : List Laser) (ob : RObj) (k : ℕ)
    (h4 : (instanceColor pls ob).length = 4) :
    ∀ w ∈ entityWrites pls ob k,
      k * instanceFloatSize ≤ w.1 ∧ w.1 < k * instanceFloatSize + 14 := by
  intro w hw
  unfold entityWrites at hw
  dsimp only at hw
  rcases List.mem_append.mp hw with hw' | hlast
  · rcases List.mem_append.mp hw' with hw'' | hcol
    · rcases List.mem_append.mp hw'' with hpos | hsize
      · have := writesFrom_mem_bound _ _ w hpos
        simp only [List.length_cons, List.length_nil] at this
        omega
      · have := writesFrom_mem_bound _ _ w hsize
        simp only [List.length_cons, List.length_nil] at this
        omega
    · have := writesFrom_mem_bound _ _ w hcol
      rw [h4] at this
      omega
  · rcases List.mem_cons.mp hlast with h | h
    · subst h; omega
    · rcases List.mem_cons.mp h with h' | h'
      · subst h'; omega
      · simp at h'

theorem skip_iff (c : ℕ) :
    instanceDataLength ≤ c * instanceFloatSize ↔ MAX_INSTANCES ≤ c := by
  simp only [instanceDataLength, instanceFloatSize, MAX_INSTANCES]
  omega

theorem packLoop_count (pls : List Laser) :
    ∀ (objs : List RObj) (c : ℕ), c ≤ MAX_INSTANCES →
      (packLoop pls objs c).2 = min (c + objs.length) MAX_INSTANCES := by
  intro objs
  induction objs with
  | nil =>
    intro c hc
    rw [packLoop_nil]
    simp only [List.length_nil, Nat.add_zero]
    omega
  | cons ob rest ih =>
    intro c hc
    rw [packLoop_cons]
    by_cases hskip : instanceDataLength ≤ c * instanceFloatSize
    · rw [if_pos hskip]
      rw [skip_iff] at hskip
      rw [ih c hc]
      simp only [List.length_cons]
      omega
    · rw [if_neg hskip]
      rw [skip_iff] at hskip
      have hlt : c + 1 ≤ MAX_INSTANCES := by omega
      dsimp only
      rw [ih (c + 1) hlt]
      simp only [List.length_cons]
      omega

theorem packLoop_writes_bound (pls : List Laser) :
    ∀ (objs : List RObj), (∀ ob ∈ objs, ob.color.length = 4) →
      ∀ (c : ℕ), ∀ w ∈ (packLoop pls objs c).1, w.1 < instanceDataLength := by
  intro objs
  induction objs with
  | nil => intro _ c w hw; rw [packLoop_nil] at hw; simp at hw
  | cons ob rest ih =>
    intro hcolor c w hw
    rw [packLoop_cons] at hw
    by_cases hskip : instanceDataLength ≤ c * instanceFloatSize
    · rw [if_pos hskip] at hw
      exact ih (fun x hx => hcolor x (List.mem_cons_of_mem ob hx)) c w hw
    · rw [if_neg hskip] at hw
      dsimp only at hw
      rcases List.mem_append.mp hw with h | h
      · have hb := entityWrites_bound pls ob c
          (instanceColor_length pls ob (hcolor ob (List.mem_cons_self ob rest))) w h
        rw [skip_iff] at hskip
        simp only [MAX_INSTANCES] at hskip
        simp only [instanceFloatSize] at hb
        simp only [instanceDataLength, instanceFloatSize, MAX_INSTANCES]
        omega
      · exact ih (fun x hx => hcolor x (List.mem_cons_of_mem ob hx)) (c + 1) w h

theorem packLoop_stuck (pls : List Laser) :
    ∀ (objs : List RObj) (c : ℕ), instanceDataLength ≤ c * instanceFloatSize →
      packLoop pls objs c = ([], c) := by
  intro objs
  induction objs with
  | nil => intro c _; exact packLoop_nil pls c
  | cons ob rest ih =>
    intro c hc
    rw [packLoop_cons, if_pos hc]
    exact ih c hc

theorem packLoop_eq_take (pls : List Laser) :
    ∀ (objs : List RObj) (c : ℕ),
      packLoop pls objs c = packLoop pls (objs.take (MAX_INSTANCES - c)) c := by
  intro objs
  induction objs with
  | nil => intro c; simp
  | cons ob rest ih =>
    intro c
    by_cases hskip : instanceDataLength ≤ c * instanceFloatSize
    · have hc0 : MAX_INSTANCES - c = 0 := by
        rw [skip_iff] at hskip
        omega
      rw [hc0, List.take_zero, packLoop_nil,
        packLoop_stuck pls (ob :: rest) c hskip]
    · have hskip' : ¬ MAX_INSTANCES ≤ c := by rw [← skip_iff]; exact hskip
      obtain ⟨m, hm⟩ : ∃ m, MAX_INSTANCES - c = m + 1 :=
        ⟨MAX_INSTANCES - c - 1, by omega⟩
      have hmm : m = MAX_INSTANCES - (c + 1) := by omega
      rw [hm, List.take_succ_cons, packLoop_cons, packLoop_cons,
        if_neg hskip, if_neg hskip, hmm, ih (c + 1)]

/-- A concrete particle-like render object for the C9 witness. -/
def wObj : RObj :=
  { modelType := ModelType.Cube, id := 0,
    position := { x := 0, y := 0, z := 0 },
    size := { width := 1, height := 1, depth := 1 },
    type := 0, life := some 1, initialLife := some 1, color := [1, 1, 1, 1] }

/-- C9: for every entity snapshot whose particle colors are RGBA 4-vectors,
the packing loop packs `min (number of entities) MAX_INSTANCES` records,
every performed write lands strictly inside the instance array, and the
whole output (writes and final count) equals that of the first
`MAX_INSTANCES` entities alone — overflow entities are skipped and do not
affect the packed records. -/
theorem c9_instance_packing_truncates (pls : List Laser) (objs : List RObj)
    (hcolor : ∀ ob ∈ objs, ob.color.length = 4) :
    (packLoop pls objs 0).2 = min objs.length MAX_INSTANCES ∧
    (∀ w ∈ (packLoop pls objs 0).1, w.1 < instanceDataLength) ∧
    packLoop pls objs 0 = packLoop pls (objs.take MAX_INSTANCES) 0 := by
  refine ⟨?_, packLoop_writes_bound pls objs hcolor 0, ?_⟩
  · have h := packLoop_count pls objs 0 (by norm_num [MAX_INSTANCES])
    simpa using h
  · have h := packLoop_eq_take pls objs 0
    simpa using h

/-- Witness for C9 at a one-particle snapshot. -/
theorem c9_instance_packing_truncates_witness :
    (∀ ob ∈ [wObj], ob.color.length = 4) ∧
    ((packLoop [] [wObj] 0).2 = min [wObj].length MAX_INSTANCES ∧
     (∀ w ∈ (packLoop [] [wObj] 0).1, w.1 < instanceDataLength) ∧
     packLoop [] [wObj] 0 = packLoop [] ([wObj].take MAX_INSTANCES) 0) :=
  ⟨by intro ob hob; fin_cases hob; rfl,
   c9_instance_packing_truncates [] [wObj] (by intro ob hob; fin_cases hob; rfl)⟩

/-! Entity id uniqueness (C4). -/

theorem createExplosion_ids (o : Oracle) (pos : Pos3) (color : List ℚ) :
    ∀ (n r p : ℕ),
      (createExplosion o pos color n r p).map (fun q => q.id)
        = (List.range n).map (fun i => o.perf (p + i) + o.rand (r + 5 * i + 4)) := by
  intro n
  induction n with
  | zero => intro r p; rfl
  | succ n ih =>
    intro r p
    rw [List.range_succ_eq_map]
    simp only [createExplosion, List.map_cons, List.map_map, ih]
    congr 1
    apply List.map_congr_left
    intro a _
    simp only [Function.comp_apply]
    congr 1
    · congr 1; omega
    · congr 1; omega

/-- The constant environment stream exhibiting the id collision. -/
def dupOracle : Oracle :=
  { rand := fun _ => 1, perf := fun _ => 0, cos := fun _ => 0, sin := fun _ => 0, pi := 0 }

/-- C4 counterexample: under a constant `performance.now` / `Math.random`
stream, all 1000 particles of one explosion burst receive the same id, so
from the second push onward the inserted particle's id equals an id already
present in the particle collection — the claimed strict distinctness fails
for this stream. -/
theorem c4_counterexample_particle_ids_collide :
    ¬ (((createExplosion dupOracle { x := 0, y := 0, z := 0 } [1, 1, 1, 1] 1000 0 0).map
        (fun q => q.id)).Nodup) := by
  rw [createExplosion_ids]
  have h1 : (List.range 1000).map
      (fun i => dupOracle.perf (0 + i) + dupOracle.rand (0 + 5 * i + 4))
        = List.replicate 1000 (1 : ℚ) := by
    have hf : (fun i : ℕ => dupOracle.perf (0 + i) + dupOracle.rand (0 + 5 * i + 4))
        = (fun _ : ℕ => (1 : ℚ)) := by
      funext i; simp [dupOracle]
    rw [hf]
    simp [List.map_const]
  rw [h1]
  intro hnd
  rw [List.nodup_replicate] at hnd
  omega

theorem hcPlayerPhase_playerLasers_sub (o : Oracle) (r p : ℕ) (s : EngineState) :
    ∀ l ∈ (hcPlayerPhase o r p s).1.playerLasers, l ∈ s.playerLasers := by
  unfold hcPlayerPhase
  dsimp only
  intro l hl
  split at hl
  · exact (List.mem_filter.mp hl).1
  · exact hl

theorem moveLasers_playerLasers_ids (dt : ℚ) (s : EngineState) :
    ∀ l ∈ (moveLasers dt s).playerLasers, ∃ l0 ∈ s.playerLasers, l.id = l0.id := by
  unfold moveLasers
  dsimp only
  intro l hl
  have hmem := (List.mem_filter.mp hl).1
  obtain ⟨l0, hl0, hmap⟩ := List.mem_map.mp hmem
  exact ⟨l0, hl0, by rw [← hmap]⟩

theorem update_playerLasers_mem (o : Oracle) (dt now : ℚ) (k : Keys) (s : EngineState)
    (h : s.gameState = GameState.Playing) :
    ∀ l ∈ (update o dt now k s).playerLasers,
      l ∈ (moveLasers dt (playerShoot k now (movePlayerAndCamera k dt s))).playerLasers := by
  intro l hl
  rw [update_playing o dt now k s h] at hl
  simp only [checkGameOver_playerLasers, handleCollisions_eq,
    phPlayerHitPhase_playerLasers] at hl
  have hl2 := hcPlayerPhase_playerLasers_sub _ _ _ _ l hl
  simpa using hl2

theorem update_preserves_laser_id_bound (s : EngineState) (o : Oracle)
    (dt now : ℚ) (k : Keys)
    (hinv : ∀ l ∈ s.playerLasers, l.id ≤ s.lastPlayerFireTime) :
    ∀ l ∈ (update o dt now k s).playerLasers,
      l.id ≤ (update o dt now k s).lastPlayerFireTime := by
  have hcool : (0 : ℚ) < LASER_COOLDOWN := by norm_num [LASER_COOLDOWN]
  by_cases h : s.gameState = GameState.Playing
  · intro l hl
    have hl3 := update_playerLasers_mem o dt now k s h l hl
    obtain ⟨l0, hl0, hid⟩ := moveLasers_playerLasers_ids _ _ l hl3
    rw [playerShoot_playerLasers] at hl0
    simp only [movePlayerAndCamera_playerLasers,
      movePlayerAndCamera_lastPlayerFireTime] at hl0
    rw [update_lastPlayerFireTime_eq o dt now k s h, playerShoot_lastPlayerFireTime]
    simp only [movePlayerAndCamera_lastPlayerFireTime]
    rcases List.mem_append.mp hl0 with hold | hnew
    · have hb := hinv l0 hold
      split
      next h2 =>
        have hlt : s.lastPlayerFireTime < now := by
          have := h2.2; rw [gt_iff_lt] at this; linarith
        rw [hid]; linarith
      next => rw [hid]; exact hb
    · by_cases h2 : k.space = true ∧ now - s.lastPlayerFireTime > LASER_COOLDOWN
      · rw [if_pos h2] at hnew
        rw [if_pos h2]
        rcases List.mem_singleton.mp hnew with rfl
        rw [hid]
        exact le_refl now
      · rw [if_neg h2] at hnew
        simp at hnew
  · rw [update_not_playing o dt now k s h]
    exact hinv

/-- C4 amended: at the player-fire insertion site the new laser id (the tick
timestamp) is distinct from every id already in the player-laser
collection, in every state reachable from a started game by update
ticks — because every stored player-laser id is at most
`lastPlayerFireTime`, which the cooldown guard forces strictly below the
spawning timestamp. -/
theorem c4_amended_player_laser_ids_fresh (d d2 : ℚ) (ts : List Tick) (k : Keys)
    (dt now : ℚ)
    (hplay : (runTicks (startGame d2 (initialState d)) ts).gameState = GameState.Playing)
    (hspace : k.space = true)
    (hcd : now - (runTicks (startGame d2 (initialState d)) ts).lastPlayerFireTime
            > LASER_COOLDOWN) :
    now ∉ (runTicks (startGame d2 (initialState d)) ts).playerLasers.map
        (fun l => l.id) := by
  have hinv : ∀ l ∈ (runTicks (startGame d2 (initialState d)) ts).playerLasers,
      l.id ≤ (runTicks (startGame d2 (initialState d)) ts).lastPlayerFireTime := by
    refine runTicks_induct
      (fun s => ∀ l ∈ s.playerLasers, l.id ≤ s.lastPlayerFireTime) ?_ ts _ ?_
    · intro s t hP
      exact update_preserves_laser_id_bound s t.o t.dt t.now t.keys hP
    · intro l hl
      simp [startGame, resetGame] at hl
  intro hmem
  obtain ⟨l, hl, hid⟩ := List.mem_map.mp hmem
  have hb := hinv l hl
  rw [hid] at hb
  have hc : (0 : ℚ) < LASER_COOLDOWN := by norm_num [LASER_COOLDOWN]
  linarith

/-- Witness for the amended C4 at a freshly started game. -/
theorem c4_amended_player_laser_ids_fresh_witness :
    (301 : ℚ) ∉ (runTicks (startGame 0 (initialState 0)) []).playerLasers.map
        (fun l => l.id) :=
  c4_amended_player_laser_ids_fresh 0 0 [] fireKeys 1 301 rfl rfl
    (by norm_num [runTicks, startGame, resetGame, initialState, LASER_COOLDOWN])

/-! Player-laser versus invader collision resolution (C1). -/

/-- The first invader in list order that is not yet marked and overlaps the
laser: the one the inner loop of `handleCollisions` consumes. -/
def findHit (laser : Laser) (invRm : List ℚ) : List Invader → Option Invader
  | [] => none
  | inv :: rest =>
    if inv.id ∉ invRm ∧ checkCollision laser.position laser.size inv.position inv.size
    then some inv
    else findHit laser invRm rest

theorem createExplosion_length (o : Oracle) (pos : Pos3) (color : List ℚ) :
    ∀ (n r p : ℕ), (createExplosion o pos color n r p).length = n := by
  intro n
  induction n with
  | zero => intro r p; rfl
  | succ n ih => intro r p; simp only [createExplosion, List.length_cons, ih]

theorem hcInner_mem (o : Oracle) (laser : Laser) :
    ∀ (invs : List Invader) (acc : HCAcc), laser.id ∈ acc.lasRm →
      hcInner o laser invs acc = acc := by
  intro invs
  induction invs with
  | nil => intro acc _; rfl
  | cons inv rest ih =>
    intro acc h
    rw [hcInner, if_neg]
    · exact ih acc h
    · intro hg; exact hg.2.1 h

theorem hcInner_eq_findHit (o : Oracle) (laser : Laser) :
    ∀ (invs : List Invader) (acc : HCAcc), laser.id ∉ acc.lasRm →
      hcInner o laser invs acc =
        (match findHit laser acc.invRm invs with
         | none => acc
         | some inv => hcHit o laser inv acc) := by
  intro invs
  induction invs with
  | nil => intro acc _; rfl
  | cons inv rest ih =>
    intro acc h
    rw [hcInner, findHit]
    by_cases hc : inv.id ∉ acc.invRm ∧
        checkCollision laser.position laser.size inv.position inv.size
    · rw [if_pos ⟨hc.1, h, hc.2⟩, if_pos hc]
      apply hcInner_mem
      simp [hcHit]
    · rw [if_neg (fun hg => hc ⟨hg.1, hg.2.2⟩), if_neg hc]
      exact ih acc h

theorem findHit_some (laser : Laser) (invRm : List ℚ) :
    ∀ (invs : List Invader) (inv : Invader), findHit laser invRm invs = some inv →
      inv ∈ invs ∧ inv.id ∉ invRm ∧
        checkCollision laser.position laser.size inv.position inv.size := by
  intro invs
  induction invs with
  | nil => intro inv h; simp [findHit] at h
  | cons b rest ih =>
    intro inv h
    rw [findHit] at h
    split at h
    · next hc =>
        rcases Option.some.inj h with rfl
        exact ⟨List.mem_cons_self b rest, hc.1, hc.2⟩
    · have := ih inv h
      exact ⟨List.mem_cons_of_mem b this.1, this.2⟩

theorem nodup_append_singleton {l : List ℚ} {x : ℚ} (h : l.Nodup) (hx : x ∉ l) :
    (l ++ [x]).Nodup := by
  simp [List.nodup_append, h, hx]

theorem sum_filter_mem_append {α : Type} (idf : α → ℚ) (c : α → ℚ) :
    ∀ (l : List α) (rm : List ℚ) (a : α),
      (l.map idf).Nodup → a ∈ l → idf a ∉ rm →
      ((l.filter (fun i => decide (idf i ∈ rm ++ [idf a]))).map c).sum
        = ((l.filter (fun i => decide (idf i ∈ rm))).map c).sum + c a := by
  intro l
  induction l with
  | nil => intro rm a _ ha _; simp at ha
  | cons b l ih =>
    intro rm a hnd ha hnotin
    have hndt : (l.map idf).Nodup := (List.nodup_cons.mp (by simpa using hnd)).2
    have hhead : idf b ∉ l.map idf := (List.nodup_cons.mp (by simpa using hnd)).1
    simp only [List.filter_cons]
    rcases List.mem_cons.mp ha with rfl | hal
    · have htail : l.filter (fun i => decide (idf i ∈ rm ++ [idf a]))
          = l.filter (fun i => decide (idf i ∈ rm)) := by
        apply List.filter_congr
        intro x hx
        have hne : idf x ≠ idf a := by
          intro he
          exact hhead (he ▸ List.mem_map_of_mem idf hx)
        simp [List.mem_append, hne]
      rw [htail, if_pos (show decide (idf a ∈ rm ++ [idf a]) = true by simp),
        if_neg (show ¬ decide (idf a ∈ rm) = true by simpa using hnotin)]
      simp only [List.map_cons, List.sum_cons]
      ring
    · have hne : idf b ≠ idf a := by
        intro he
        exact hhead (he ▸ List.mem_map_of_mem idf hal)
      by_cases hbrm : idf b ∈ rm
      · rw [if_pos (show decide (idf b ∈ rm ++ [idf a]) = true by
            simp [List.mem_append, hbrm]),
          if_pos (show decide (idf b ∈ rm) = true by simpa using hbrm)]
        simp only [List.map_cons, List.sum_cons]
        rw [ih rm a hndt hal hnotin]
        ring
      · rw [if_neg (show ¬ decide (idf b ∈ rm ++ [idf a]) = true by
            simp [List.mem_append, hbrm, hne]),
          if_neg (show ¬ decide (idf b ∈ rm) = true by simpa using hbrm)]
        exact ih rm a hndt hal hnotin

theorem length_filter_split_mem {α : Type} (idf : α → ℚ) (rm : List ℚ) :
    ∀ (l : List α),
      l.length = (l.filter (fun i => decide (idf i ∉ rm))).length
        + (l.filter (fun i => decide (idf i ∈ rm))).length := by
  intro l
  induction l with
  | nil => rfl
  | cons b l ih =>
    simp only [List.filter_cons, List.length_cons]
    by_cases hb : idf b ∈ rm
    · rw [if_neg (show ¬ decide (idf b ∉ rm) = true by simpa using hb),
        if_pos (show decide (idf b ∈ rm) = true by simpa using hb)]
      simp only [List.length_cons]
      omega
    · rw [if_pos (show decide (idf b ∉ rm) = true by simpa using hb),
        if_neg (show ¬ decide (idf b ∈ rm) = true by simpa using hb)]
      simp only [List.length_cons]
      omega

theorem length_filter_mem {α : Type} (idf : α → ℚ) :
    ∀ (l : List α) (rm : List ℚ), (l.map idf).Nodup → rm.Nodup →
      (∀ x ∈ rm, x ∈ l.map idf) →
      (l.filter (fun i => decide (idf i ∈ rm))).length = rm.length := by
  intro l
  induction l with
  | nil =>
    intro rm _ _ hsub
    have : rm = [] := by
      cases rm with
      | nil => rfl
      | cons x rm' => exact absurd (hsub x (List.mem_cons_self x rm')) (by simp)
    subst this
    rfl
  | cons b l ih =>
    intro rm hnd hrm hsub
    have hndt : (l.map idf).Nodup := (List.nodup_cons.mp (by simpa using hnd)).2
    have hhead : idf b ∉ l.map idf := (List.nodup_cons.mp (by simpa using hnd)).1
    simp only [List.filter_cons]
    by_cases hb : idf b ∈ rm
    · have hsub' : ∀ x ∈ rm.erase (idf b), x ∈ l.map idf := by
        intro x hx
        have hxrm : x ∈ rm := List.mem_of_mem_erase hx
        have hxne : x ≠ idf b := ((List.Nodup.mem_erase_iff hrm).mp hx).1
        rcases List.mem_cons.mp (hsub x hxrm) with h | h
        · exact absurd h hxne
        · exact h
      have htail : l.filter (fun i => decide (idf i ∈ rm))
          = l.filter (fun i => decide (idf i ∈ rm.erase (idf b))) := by
        apply List.filter_congr
        intro x hx
        have hne : idf x ≠ idf b := by
          intro he
          exact hhead (he ▸ List.mem_map_of_mem idf hx)
        simp only [decide_eq_decide]
        exact (List.mem_erase_of_ne hne).symm
      rw [if_pos (show decide (idf b ∈ rm) = true by simpa using hb), htail,
        List.length_cons, ih (rm.erase (idf b)) hndt (hrm.erase (idf b)) hsub',
        List.length_erase_of_mem hb]
      have : 0 < rm.length := List.length_pos.mpr (List.ne_nil_of_mem hb)
      omega
    · rw [if_neg (show ¬ decide (idf b ∈ rm) = true by simpa using hb)]
      apply ih rm hndt hrm
      intro x hx
      rcases List.mem_cons.mp (hsub x hx) with h | h
      · subst h; exact absurd hx hb
      · exact h

theorem foldl_inv {α β : Type} (P : β → Prop) (f : β → α → β) :
    ∀ (l : List α), (∀ b a, a ∈ l → P b → P (f b a)) → ∀ b, P b → P (l.foldl f b) := by
  intro l
  induction l with
  | nil => intro _ b h; exact h
  | cons a l ih =>
    intro step b h
    rw [List.foldl_cons]
    exact ih (fun b' a' ha' hb' => step b' a' (List.mem_cons_of_mem a ha') hb')
      (f b a) (step b a (List.mem_cons_self a l) h)

theorem hcFold_spec (o : Oracle) (r p : ℕ) (s : EngineState)
    (hInv : (s.invaders.map (fun i => i.id)).Nodup) :
    (hcFold o r p s).invRm.Nodup ∧
    (hcFold o r p s).lasRm.Nodup ∧
    (hcFold o r p s).invRm.length = (hcFold o r p s).lasRm.length ∧
    (∀ x ∈ (hcFold o r p s).invRm, x ∈ s.invaders.map (fun i => i.id)) ∧
    (∀ x ∈ (hcFold o r p s).lasRm, x ∈ s.playerLasers.map (fun l => l.id)) ∧
    (hcFold o r p s).score
      = s.score + ((s.invaders.filter (fun i => decide (i.id ∈ (hcFold o r p s).invRm))).map
          (fun i => 10 * ((INVADER_ROWS : ℚ) - (i.type : ℚ)))).sum ∧
    (hcFold o r p s).particles.length
      = s.particles.length + 1000 * (hcFold o r p s).invRm.length := by
  apply foldl_inv
    (fun acc : HCAcc =>
      acc.invRm.Nodup ∧ acc.lasRm.Nodup ∧ acc.invRm.length = acc.lasRm.length ∧
      (∀ x ∈ acc.invRm, x ∈ s.invaders.map (fun i => i.id)) ∧
      (∀ x ∈ acc.lasRm, x ∈ s.playerLasers.map (fun l => l.id)) ∧
      acc.score = s.score + ((s.invaders.filter (fun i => decide (i.id ∈ acc.invRm))).map
          (fun i => 10 * ((INVADER_ROWS : ℚ) - (i.type : ℚ)))).sum ∧
      acc.particles.length = s.particles.length + 1000 * acc.invRm.length)
    (fun acc laser => hcInner o laser s.invaders acc)
    s.playerLasers
  · intro acc laser hmem hP
    obtain ⟨h1, h2, h3, h4, h5, h6, h7⟩ := hP
    by_cases hl : laser.id ∈ acc.lasRm
    · rw [hcInner_mem o laser s.invaders acc hl]
      exact ⟨h1, h2, h3, h4, h5, h6, h7⟩
    · rw [hcInner_eq_findHit o laser s.invaders acc hl]
      cases hfh : findHit laser acc.invRm s.invaders with
      | none => exact ⟨h1, h2, h3, h4, h5, h6, h7⟩
      | some inv =>
        obtain ⟨hin, hnotin, _⟩ := findHit_some laser acc.invRm s.invaders inv hfh
        refine ⟨nodup_append_singleton h1 hnotin, nodup_append_singleton h2 hl, ?_, ?_, ?_, ?_, ?_⟩
        · simp only [hcHit, List.length_append, List.length_cons, List.length_nil, h3]
        · intro x hx
          rcases List.mem_append.mp hx with hx | hx
          · exact h4 x hx
          · rcases List.mem_singleton.mp hx with rfl
            exact List.mem_map_of_mem (fun i => i.id) hin
        · intro x hx
          rcases List.mem_append.mp hx with hx | hx
          · exact h5 x hx
          · rcases List.mem_singleton.mp hx with rfl
            exact List.mem_map_of_mem (fun l => l.id) hmem
        · have hsum := sum_filter_mem_append (fun i : Invader => i.id)
            (fun i : Invader => 10 * ((INVADER_ROWS : ℚ) - (i.type : ℚ)))
            s.invaders acc.invRm inv hInv hin hnotin
          simp only [hcHit]
          rw [hsum, h6]
          ring
        · simp only [hcHit, List.length_append, List.length_cons, List.length_nil,
            createExplosion_length, h7]
          ring
  · refine ⟨List.nodup_nil, List.nodup_nil, rfl, ?_, ?_, ?_, ?_⟩
    · intro x hx; simp [hcAccInit] at hx
    · intro x hx; simp [hcAccInit] at hx
    · simp [hcAccInit]
    · simp [hcAccInit]

theorem hcPlayerPhase_invaders (o : Oracle) (r p : ℕ) (s : EngineState) :
    (hcPlayerPhase o r p s).1.invaders
      = s.invaders.filter (fun i => decide (i.id ∉ (hcFold o r p s).invRm)) := by
  unfold hcPlayerPhase
  dsimp only
  split
  · rfl
  · next hlen =>
      have h0 : (hcFold o r p s).invRm = [] :=
        List.eq_nil_of_length_eq_zero (by omega)
      rw [h0]
      simp

theorem hcPlayerPhase_playerLasers_eq (o : Oracle) (r p : ℕ) (s : EngineState)
    (h3 : (hcFold o r p s).invRm.length = (hcFold o r p s).lasRm.length) :
    (hcPlayerPhase o r p s).1.playerLasers
      = s.playerLasers.filter (fun l => decide (l.id ∉ (hcFold o r p s).lasRm)) := by
  unfold hcPlayerPhase
  dsimp only
  split
  · rfl
  · next hlen =>
      have h0 : (hcFold o r p s).lasRm = [] :=
        List.eq_nil_of_length_eq_zero (by omega)
      rw [h0]
      simp

/-- C1: under per-tick well-formedness (distinct invader ids and distinct
player-laser ids), the double loop of `handleCollisions` marks pairwise
distinct invader ids and pairwise distinct laser ids, exactly as many of
each (so each laser destroys at most one invader and each invader consumes
at most one laser); the score grows by exactly one award per destroyed
invader, exactly one 1000-particle burst is appended per destroyed invader,
and both collections are pruned by a single filter pass over the marked-id
sets, removing exactly one entity per marked id. -/
theorem c1_at_most_one_consumption_per_entity (o : Oracle) (r p : ℕ) (s : EngineState)
    (hInv : (s.invaders.map (fun i => i.id)).Nodup)
    (hLas : (s.playerLasers.map (fun l => l.id)).Nodup) :
    (hcFold o r p s).invRm.Nodup ∧
    (hcFold o r p s).lasRm.Nodup ∧
    (hcFold o r p s).invRm.length = (hcFold o r p s).lasRm.length ∧
    (hcPlayerPhase o r p s).1.invaders
      = s.invaders.filter (fun i => decide (i.id ∉ (hcFold o r p s).invRm)) ∧
    (hcPlayerPhase o r p s).1.playerLasers
      = s.playerLasers.filter (fun l => decide (l.id ∉ (hcFold o r p s).lasRm)) ∧
    s.invaders.length
      = (hcPlayerPhase o r p s).1.invaders.length + (hcFold o r p s).invRm.length ∧
    s.playerLasers.length
      = (hcPlayerPhase o r p s).1.playerLasers.length + (hcFold o r p s).lasRm.length ∧
    (hcPlayerPhase o r p s).1.score
      = s.score + ((s.invaders.filter (fun i => decide (i.id ∈ (hcFold o r p s).invRm))).map
          (fun i => 10 * ((INVADER_ROWS : ℚ) - (i.type : ℚ)))).sum ∧
    (hcPlayerPhase o r p s).1.particles.length
      = s.particles.length + 1000 * (hcFold o r p s).invRm.length := by
  obtain ⟨h1, h2, h3, h4, h5, h6, h7⟩ := hcFold_spec o r p s hInv
  have hInvEq := hcPlayerPhase_invaders o r p s
  have hLasEq := hcPlayerPhase_playerLasers_eq o r p s h3
  refine ⟨h1, h2, h3, hInvEq, hLasEq, ?_, ?_, ?_, ?_⟩
  · rw [hInvEq]
    have hsplit := length_filter_split_mem (fun i : Invader => i.id)
      (hcFold o r p s).invRm s.invaders
    have hcount : (s.invaders.filter
          (fun i => decide (i.id ∈ (hcFold o r p s).invRm))).length
        = (hcFold o r p s).invRm.length :=
      length_filter_mem (fun i : Invader => i.id)
        s.invaders (hcFold o r p s).invRm hInv h1 h4
    omega
  · rw [hLasEq]
    have hsplit := length_filter_split_mem (fun l : Laser => l.id)
      (hcFold o r p s).lasRm s.playerLasers
    have hcount : (s.playerLasers.filter
          (fun l => decide (l.id ∈ (hcFold o r p s).lasRm))).length
        = (hcFold o r p s).lasRm.length :=
      length_filter_mem (fun l : Laser => l.id)
        s.playerLasers (hcFold o r p s).lasRm hLas h2 h5
    omega
  · simpa using h6
  · simpa using h7

/-- First invader of the C1 witness state. -/
def c1wInvA : Invader :=
  { id := 1, position := { x := 100, y := 520, z := 0 },
    size := { width := INVADER_WIDTH, height := INVADER_HEIGHT, depth := INVADER_DEPTH },
    type := 0, modelType := ModelType.Invader }

/-- Second invader of the C1 witness state, overlapping the first. -/
def c1wInvB : Invader :=
  { id := 2, position := { x := 120, y := 520, z := 0 },
    size := { width := INVADER_WIDTH, height := INVADER_HEIGHT, depth := INVADER_DEPTH },
    type := 1, modelType := ModelType.Invader }

/-- A player laser overlapping both witness invaders. -/
def c1wLaser : Laser :=
  { id := 9, position := { x := 125, y := 525, z := 0 },
    size := { width := LASER_WIDTH, height := LASER_HEIGHT, depth := LASER_DEPTH },
    modelType := ModelType.Laser }

/-- A `Playing` state in which one laser's box overlaps two invaders. -/
def c1wState : EngineState :=
  { gameState := GameState.Playing, score := 0, lives := 3, cameraYOffset := 0,
    player := createPlayer, invaders := [c1wInvA, c1wInvB],
    playerLasers := [c1wLaser], invaderLasers := [], particles := [],
    invaderDirection := InvDir.right, invaderSpeed := 50, lastPlayerFireTime := 0 }

/-- Witness for C1 at a concrete state where one laser overlaps two
invaders. -/
theorem c1_at_most_one_consumption_per_entity_witness :
    ((c1wState.invaders.map (fun i => i.id)).Nodup ∧
     (c1wState.playerLasers.map (fun l => l.id)).Nodup) ∧
    ((hcFold zeroOracle 0 0 c1wState).invRm.Nodup ∧
     (hcFold zeroOracle 0 0 c1wState).lasRm.Nodup ∧
     (hcFold zeroOracle 0 0 c1wState).invRm.length
       = (hcFold zeroOracle 0 0 c1wState).lasRm.length ∧
     (hcPlayerPhase zeroOracle 0 0 c1wState).1.invaders
       = c1wState.invaders.filter
           (fun i => decide (i.id ∉ (hcFold zeroOracle 0 0 c1wState).invRm)) ∧
     (hcPlayerPhase zeroOracle 0 0 c1wState).1.playerLasers
       = c1wState.playerLasers.filter
           (fun l => decide (l.id ∉ (hcFold zeroOracle 0 0 c1wState).lasRm)) ∧
     c1wState.invaders.length
       = (hcPlayerPhase zeroOracle 0 0 c1wState).1.invaders.length
         + (hcFold zeroOracle 0 0 c1wState).invRm.length ∧
     c1wState.playerLasers.length
       = (hcPlayerPhase zeroOracle 0 0 c1wState).1.playerLasers.length
         + (hcFold zeroOracle 0 0 c1wState).lasRm.length ∧
     (hcPlayerPhase zeroOracle 0 0 c1wState).1.score
       = c1wState.score + ((c1wState.invaders.filter
           (fun i => decide (i.id ∈ (hcFold zeroOracle 0 0 c1wState).invRm))).map
             (fun i => 10 * ((INVADER_ROWS : ℚ) - (i.type : ℚ)))).sum ∧
     (hcPlayerPhase zeroOracle 0 0 c1wState).1.particles.length
       = c1wState.particles.length
         + 1000 * (hcFold zeroOracle 0 0 c1wState).invRm.length) :=
  ⟨⟨by decide, by decide⟩,
   c1_at_most_one_consumption_per_entity zeroOracle 0 0 c1wState (by decide) (by decide)⟩

/-! The canonical-grid scenario (C3). -/

/-- The single player laser of the scenario, placed on the bounding box of
the row-0, column-5 invader of the canonical grid (and overlapping no other
invader). -/
def c3laser : Laser :=
  { id := 1000, position := { x := 398, y := 530, z := 0 },
    size := { width := LASER_WIDTH, height := LASER_HEIGHT, depth := LASER_DEPTH },
    modelType := ModelType.Laser }

/-- The scenario state: a freshly started game plus the one laser. -/
def c3start : EngineState :=
  { startGame 0 (initialState 0) with playerLasers := [c3laser] }

/-- The targeted invader: row 0 (`type` 0, the row created first, worth
`10 * (5 - 0)` points), center column 5. -/
def c3target : Invader := mkInvader 0 0 5

theorem invaderFireLoop_none (o : Oracle) (h : ∀ n, ¬ o.rand n < INVADER_FIRE_CHANCE) :
    ∀ (invs : List Invader) (r p : ℕ) (acc : List Laser),
      invaderFireLoop o invs r p acc = (acc, r + invs.length, p) := by
  intro invs
  induction invs with
  | nil => intro r p acc; simp [invaderFireLoop]
  | cons inv rest ih =>
    intro r p acc
    rw [invaderFireLoop, if_neg (h r), ih (r + 1) p acc]
    simp only [List.length_cons, Prod.mk.injEq, true_and, and_true]
    omega

theorem invaderFire_none (o : Oracle) (h : ∀ n, ¬ o.rand n < INVADER_FIRE_CHANCE)
    (s : EngineState) (r p : ℕ) :
    invaderFire o r p s = (s, r + s.invaders.length, p) := by
  unfold invaderFire
  dsimp only
  rw [invaderFireLoop_none o h]

theorem phLoop_nil (o : Oracle) (pl : Player) (acc : PHAcc) :
    phLoop o pl [] acc = acc := rfl

theorem phPlayerHitPhase_no_lasers (o : Oracle) (t : EngineState × ℕ × ℕ)
    (h : t.1.invaderLasers = []) : phPlayerHitPhase o t = t.1 := by
  obtain ⟨s, r, p⟩ := t
  obtain ⟨gs, sc, lv, cy, pl, iv, pls, ils, pts, dir, spd, lft⟩ := s
  simp only at h
  subst h
  rfl

theorem moveLasers_zero (s : EngineState)
    (hp : ∀ l ∈ s.playerLasers, l.position.y < GAME_HEIGHT)
    (hi : ∀ l ∈ s.invaderLasers, l.position.y > 0) :
    moveLasers 0 s = s := by
  unfold moveLasers
  have hm1 : s.playerLasers.map (fun l =>
      ({ l with position := { l.position with
          y := l.position.y + PLAYER_LASER_SPEED * 0 } } : Laser))
      = s.playerLasers.map (fun l => l) :=
    List.map_congr_left (by intro l _; simp)
  have hm2 : s.invaderLasers.map (fun l =>
      ({ l with position := { l.position with
          y := l.position.y - INVADER_LASER_SPEED * 0 } } : Laser))
      = s.invaderLasers.map (fun l => l) :=
    List.map_congr_left (by intro l _; simp)
  rw [hm1, hm2, List.map_id', List.map_id',
    List.filter_eq_self.mpr (fun l hl => decide_eq_true (hp l hl)),
    List.filter_eq_self.mpr (fun l hl => decide_eq_true (hi l hl))]

theorem stepParticles_empty (dt : ℚ) (s : EngineState) (h : s.particles = []) :
    stepParticles dt s = s := by
  obtain ⟨gs, sc, lv, cy, pl, iv, pls, ils, pts, dir, spd, lft⟩ := s
  simp only at h
  subst h
  rfl

theorem moveInvaders_zero_nohit (s : EngineState)
    (h : invadersHitWall s.invaders s.invaderDirection s.invaderSpeed 0 = false) :
    moveInvaders 0 s = s := by
  unfold moveInvaders
  dsimp only
  rw [h]
  simp only [Bool.false_eq_true, if_false]
  have hmap : s.invaders.map (fun inv =>
      ({ inv with position := { inv.position with
          x := inv.position.x +
            (if s.invaderDirection = InvDir.right then s.invaderSpeed
             else -s.invaderSpeed) * 0 } } : Invader))
      = s.invaders.map (fun inv => inv) :=
    List.map_congr_left (by intro inv _; simp)
  rw [hmap, List.map_id']

/-- Structural membership in the canonical grid. -/
theorem createInvaders_mem (d : ℚ) (i : Invader) (hi : i ∈ createInvaders d) :
    ∃ row col : ℕ, row < INVADER_ROWS ∧ col < INVADER_COLS ∧ i = mkInvader d row col := by
  unfold createInvaders at hi
  rw [List.mem_flatten] at hi
  obtain ⟨l, hl, hil⟩ := hi
  rw [List.mem_map] at hl
  obtain ⟨row, hrow, rfl⟩ := hl
  rw [List.mem_map] at hil
  obtain ⟨col, hcol, rfl⟩ := hil
  exact ⟨row, col, List.mem_range.mp hrow, List.mem_range.mp hcol, rfl⟩

theorem c3_grid_expand : createInvaders 0 =
      [       mkInvader 0 0 0, mkInvader 0 0 1, mkInvader 0 0 2, mkInvader 0 0 3, mkInvader 0 0 4, mkInvader 0 0 5, mkInvader 0 0 6, mkInvader 0 0 7, mkInvader 0 0 8, mkInvader 0 0 9, mkInvader 0 0 10,
       mkInvader 0 1 0, mkInvader 0 1 1, mkInvader 0 1 2, mkInvader 0 1 3, mkInvader 0 1 4, mkInvader 0 1 5, mkInvader 0 1 6, mkInvader 0 1 7, mkInvader 0 1 8, mkInvader 0 1 9, mkInvader 0 1 10,
       mkInvader 0 2 0, mkInvader 0 2 1, mkInvader 0 2 2, mkInvader 0 2 3, mkInvader 0 2 4, mkInvader 0 2 5, mkInvader 0 2 6, mkInvader 0 2 7, mkInvader 0 2 8, mkInvader 0 2 9, mkInvader 0 2 10,
       mkInvader 0 3 0, mkInvader 0 3 1, mkInvader 0 3 2, mkInvader 0 3 3, mkInvader 0 3 4, mkInvader 0 3 5, mkInvader 0 3 6, mkInvader 0 3 7, mkInvader 0 3 8, mkInvader 0 3 9, mkInvader 0 3 10,
       mkInvader 0 4 0, mkInvader 0 4 1, mkInvader 0 4 2, mkInvader 0 4 3, mkInvader 0 4 4, mkInvader 0 4 5, mkInvader 0 4 6, mkInvader 0 4 7, mkInvader 0 4 8, mkInvader 0 4 9, mkInvader 0 4 10] := by
  unfold createInvaders
  rw [(by decide : List.range INVADER_ROWS = [0, 1, 2, 3, 4]),
    (by decide : List.range INVADER_COLS = [0, 1, 2, 3, 4, 5, 6, 7, 8, 9, 10])]
  rfl

theorem findHit_cons_neg (laser : Laser) (invRm : List ℚ) (inv : Invader)
    (rest : List Invader)
    (h : ¬ (inv.id ∉ invRm ∧
        checkCollision laser.position laser.size inv.position inv.size)) :
    findHit laser invRm (inv :: rest) = findHit laser invRm rest := by
  rw [findHit, if_neg h]

theorem findHit_cons_pos (laser : Laser) (invRm : List ℚ) (inv : Invader)
    (rest : List Invader)
    (h : inv.id ∉ invRm ∧
        checkCollision laser.position laser.size inv.position inv.size) :
    findHit laser invRm (inv :: rest) = some inv := by
  rw [findHit, if_pos h]

theorem c3_findHit : findHit c3laser ([] : List ℚ) (createInvaders 0) = some c3target := by
  rw [c3_grid_expand]
  rw [findHit_cons_neg _ _ _ _ (by norm_num [checkCollision, mkInvader, c3laser, LASER_WIDTH, LASER_HEIGHT, LASER_DEPTH, INVADER_WIDTH, INVADER_HEIGHT, INVADER_DEPTH, INVADER_SPACING_X, INVADER_SPACING_Y, INVADER_INITIAL_Y, INVADER_COLS, GAME_WIDTH, GAME_HEIGHT])]
  rw [findHit_cons_neg _ _ _ _ (by norm_num [checkCollision, mkInvader, c3laser, LASER_WIDTH, LASER_HEIGHT, LASER_DEPTH, INVADER_WIDTH, INVADER_HEIGHT, INVADER_DEPTH, INVADER_SPACING_X, INVADER_SPACING_Y, INVADER_INITIAL_Y, INVADER_COLS, GAME_WIDTH, GAME_HEIGHT])]
  rw [findHit_cons_neg _ _ _ _ (by norm_num [checkCollision, mkInvader, c3laser, LASER_WIDTH, LASER_HEIGHT, LASER_DEPTH, INVADER_WIDTH, INVADER_HEIGHT, INVADER_DEPTH, INVADER_SPACING_X, INVADER_SPACING_Y, INVADER_INITIAL_Y, INVADER_COLS, GAME_WIDTH, GAME_HEIGHT])]
  rw [findHit_cons_neg _ _ _ _ (by norm_num [checkCollision, mkInvader, c3laser, LASER_WIDTH, LASER_HEIGHT, LASER_DEPTH, INVADER_WIDTH, INVADER_HEIGHT, INVADER_DEPTH, INVADER_SPACING_X, INVADER_SPACING_Y, INVADER_INITIAL_Y, INVADER_COLS, GAME_WIDTH, GAME_HEIGHT])]
  rw [findHit_cons_neg _ _ _ _ (by norm_num [checkCollision, mkInvader, c3laser, LASER_WIDTH, LASER_HEIGHT, LASER_DEPTH, INVADER_WIDTH, INVADER_HEIGHT, INVADER_DEPTH, INVADER_SPACING_X, INVADER_SPACING_Y, INVADER_INITIAL_Y, INVADER_COLS, GAME_WIDTH, GAME_HEIGHT])]
  exact findHit_cons_pos _ _ _ _
    ⟨by simp, by norm_num [checkCollision, mkInvader, c3laser, LASER_WIDTH, LASER_HEIGHT, LASER_DEPTH, INVADER_WIDTH, INVADER_HEIGHT, INVADER_DEPTH, INVADER_SPACING_X, INVADER_SPACING_Y, INVADER_INITIAL_Y, INVADER_COLS, GAME_WIDTH, GAME_HEIGHT]⟩

theorem c3_hcFold (o : Oracle) (r p : ℕ) :
    hcFold o r p c3start = hcHit o c3laser c3target (hcAccInit r p c3start) := by
  unfold hcFold
  rw [show c3start.playerLasers = [c3laser] from rfl,
    List.foldl_cons, List.foldl_nil,
    hcInner_eq_findHit o c3laser _ _ (by simp [hcAccInit]),
    show c3start.invaders = createInvaders 0 from rfl,
    show (hcAccInit r p c3start).invRm = ([] : List ℚ) from rfl, c3_findHit]

theorem c3_target_id : c3target.id = 5 := by
  norm_num [c3target, mkInvader, INVADER_COLS]

theorem c3_handle (o : Oracle) (r p : ℕ) :
    (handleCollisions o r p c3start).score = 50 ∧
    (handleCollisions o r p c3start).invaders
      = (createInvaders 0).filter (fun i => decide (¬ i.id = 5)) ∧
    (handleCollisions o r p c3start).playerLasers = [] ∧
    (handleCollisions o r p c3start).particles.length = 1000 ∧
    (handleCollisions o r p c3start).gameState = GameState.Playing ∧
    (handleCollisions o r p c3start).player = c3start.player := by
  have hinv0 : (hcPlayerPhase o r p c3start).1.invaderLasers = [] := by
    rw [hcPlayerPhase_invaderLasers]
    rfl
  rw [handleCollisions_eq, phPlayerHitPhase_no_lasers o _ hinv0]
  refine ⟨?_, ?_, ?_, ?_, ?_, ?_⟩
  · rw [hcPlayerPhase_score, c3_hcFold o r p]
    show (hcAccInit r p c3start).score
        + 10 * ((INVADER_ROWS : ℚ) - (c3target.type : ℚ)) = 50
    norm_num [hcAccInit, c3start, startGame, resetGame, initialState,
      c3target, mkInvader, INVADER_ROWS]
  · rw [hcPlayerPhase_invaders, c3_hcFold o r p]
    show (createInvaders 0).filter
        (fun i => decide (i.id ∉ ([] : List ℚ) ++ [c3target.id])) = _
    apply List.filter_congr
    intro x _
    simp [c3_target_id]
  · have h3 : (hcFold o r p c3start).invRm.length
        = (hcFold o r p c3start).lasRm.length := by
      rw [c3_hcFold o r p]; rfl
    rw [hcPlayerPhase_playerLasers_eq o r p c3start h3, c3_hcFold o r p]
    show ([c3laser].filter
        (fun l => decide (l.id ∉ ([] : List ℚ) ++ [c3laser.id]))) = []
    simp
  · rw [hcPlayerPhase_particles, c3_hcFold o r p]
    show ((hcAccInit r p c3start).particles ++
        createExplosion o (invaderExplosionPos c3target)
          (hcInvaderColors.getD (c3target.type % hcInvaderColors.length) []) 1000
          (hcAccInit r p c3start).r (hcAccInit r p c3start).p).length = 1000
    rw [List.length_append, createExplosion_length]
    rfl
  · rw [hcPlayerPhase_gameState]
    rfl
  · rw [hcPlayerPhase_player]

theorem c3_no_wall : invadersHitWall c3start.invaders c3start.invaderDirection
    c3start.invaderSpeed 0 = false := by
  unfold invadersHitWall
  rw [List.any_eq_false]
  intro inv hinv
  obtain ⟨row, col, hrow, hcol, rfl⟩ :=
    createInvaders_mem 0 inv (show inv ∈ createInvaders 0 from hinv)
  have hc0 : (0 : ℚ) ≤ (col : ℚ) := Nat.cast_nonneg col
  have hc10 : (col : ℚ) ≤ 10 := by
    exact_mod_cast Nat.lt_succ_iff.mp hcol
  simp only [mkInvader, INVADER_SPACING_X, GAME_WIDTH, INVADER_WIDTH, INVADER_COLS]
  intro hcontra
  rcases Bool.or_eq_true_iff.mp hcontra with hx | hx
  · have := of_decide_eq_true hx
    norm_num at this
    nlinarith
  · have := of_decide_eq_true hx
    norm_num at this
    nlinarith

theorem c3_above_player : ∀ i ∈ createInvaders 0,
    ¬ (i.position.y ≤ c3start.player.position.y + PLAYER_HEIGHT) := by
  intro i hi
  obtain ⟨row, col, hrow, hcol, rfl⟩ := createInvaders_mem 0 i hi
  have hr4 : (row : ℚ) ≤ 4 := by
    exact_mod_cast Nat.lt_succ_iff.mp hrow
  simp only [mkInvader, GAME_HEIGHT, INVADER_INITIAL_Y, INVADER_HEIGHT,
    INVADER_SPACING_Y, PLAYER_HEIGHT, c3start, startGame, resetGame,
    initialState, createPlayer, GAME_WIDTH, PLAYER_WIDTH, PLAYER_Y_OFFSET]
  intro hcontra
  nlinarith

/-- C3: in the `Playing` state built from the canonical 5×11 grid with one
player laser on the row-0 center-column invader's box, one update tick
(with no keys pressed, `dt = 0`, and a random stream that never fires an
invader laser) raises the score from 0 to `10 * (5 - 0) = 50`, removes
exactly that invader, removes that laser, and appends one burst of the
configured 1000 explosion particles. -/
theorem c3_canonical_grid_scenario (o : Oracle)
    (h : ∀ n, ¬ o.rand n < INVADER_FIRE_CHANCE) (now : ℚ) :
    (update o 0 now noKeys c3start).score = 50 ∧
    (update o 0 now noKeys c3start).invaders
      = (createInvaders 0).filter (fun i => decide (¬ i.id = 5)) ∧
    c3target ∈ c3start.invaders ∧
    c3target ∉ (update o 0 now noKeys c3start).invaders ∧
    (update o 0 now noKeys c3start).playerLasers = [] ∧
    (update o 0 now noKeys c3start).particles.length = 1000 := by
  have hplay : c3start.gameState = GameState.Playing := rfl
  have hmovePC : movePlayerAndCamera noKeys 0 c3start = c3start := by
    unfold movePlayerAndCamera
    dsimp only
    have hx : max 0 (min (GAME_WIDTH - PLAYER_WIDTH) c3start.player.position.x)
        = c3start.player.position.x := by
      norm_num [c3start, startGame, resetGame, initialState, createPlayer,
        GAME_WIDTH, PLAYER_WIDTH]
    simp only [noKeys, Bool.or_self, Bool.false_eq_true, if_false, hx]
  have hpre : playerShoot noKeys now c3start = c3start := by
    unfold playerShoot
    rw [if_neg]
    rintro ⟨hs, -⟩
    simp [noKeys] at hs
  have hml : moveLasers 0 c3start = c3start := by
    apply moveLasers_zero
    · intro l hl
      rcases List.mem_singleton.mp hl with rfl
      norm_num [c3laser, GAME_HEIGHT]
    · intro l hl
      exact absurd hl (List.not_mem_nil l)
  have hsp : stepParticles 0 c3start = c3start := stepParticles_empty 0 c3start rfl
  have hmi : moveInvaders 0 c3start = c3start := moveInvaders_zero_nohit c3start c3_no_wall
  have hupd : update o 0 now noKeys c3start
      = checkGameOver (handleCollisions o (0 + c3start.invaders.length) 0 c3start) := by
    rw [update_playing o 0 now noKeys c3start hplay, hmovePC, hpre, hml, hsp, hmi,
      invaderFire_none o h c3start 0 0]
  obtain ⟨hsc, hinvs, hpl, hpart, hgs, hply⟩ :=
    c3_handle o (0 + c3start.invaders.length) 0
  have hcond : ((handleCollisions o (0 + c3start.invaders.length) 0 c3start).invaders.any
      (fun inv => decide (inv.position.y ≤
        (handleCollisions o (0 + c3start.invaders.length) 0 c3start).player.position.y
          + PLAYER_HEIGHT))
      || (handleCollisions o (0 + c3start.invaders.length) 0 c3start).invaders.isEmpty)
        = false := by
    rw [hinvs, hply, Bool.or_eq_false_iff]
    constructor
    · rw [List.any_eq_false]
      intro i hi
      have hmem : i ∈ createInvaders 0 := List.mem_of_mem_filter hi
      simp only [decide_eq_true_eq]
      exact c3_above_player i hmem
    · rw [List.isEmpty_eq_false]
      apply List.ne_nil_of_mem
      show mkInvader 0 0 0 ∈ _
      apply List.mem_filter.mpr
      constructor
      · rw [c3_grid_expand]
        exact List.mem_cons_self _ _
      · apply decide_eq_true
        norm_num [mkInvader, INVADER_COLS]
  have hcgo : checkGameOver (handleCollisions o (0 + c3start.invaders.length) 0 c3start)
      = handleCollisions o (0 + c3start.invaders.length) 0 c3start := by
    unfold checkGameOver
    rw [if_neg]
    simp only [hcond]
    exact Bool.false_ne_true
  rw [hupd, hcgo]
  refine ⟨hsc, hinvs, ?_, ?_, hpl, hpart⟩
  · show c3target ∈ c3start.invaders
    rw [show c3start.invaders = createInvaders 0 from rfl, c3_grid_expand]
    show mkInvader 0 0 5 ∈ _
    simp
  · rw [hinvs]
    intro hc
    have h2 := (List.mem_filter.mp hc).2
    have h3 := of_decide_eq_true h2
    exact h3 c3_target_id

/-- The no-invader-fire random stream for the C3 witness. -/
def c3Oracle : Oracle :=
  { rand := fun _ => 1, perf := fun _ => 0, cos := fun _ => 0, sin := fun _ => 0, pi := 0 }

/-- Witness for C3 at the always-1 random stream and timestamp 0. -/
theorem c3_canonical_grid_scenario_witness :
    (update c3Oracle 0 0 noKeys c3start).score = 50 ∧
    (update c3Oracle 0 0 noKeys c3start).invaders
      = (createInvaders 0).filter (fun i => decide (¬ i.id = 5)) ∧
    c3target ∈ c3start.invaders ∧
    c3target ∉ (update c3Oracle 0 0 noKeys c3start).invaders ∧
    (update c3Oracle 0 0 noKeys c3start).playerLasers = [] ∧
    (update c3Oracle 0 0 noKeys c3start).particles.length = 1000 :=
  c3_canonical_grid_scenario c3Oracle
    (by intro n; norm_num [c3Oracle, INVADER_FIRE_CHANCE]) 0

end SpaceInvader
